import Mathlib

/-!
Verification of the contour terminal control-sequence engine core
(src/terminal/Sequencer.cpp, src/terminal/MessageParser.h).

The C++ source is shallowly embedded: bytes are `Nat` character codes,
the screen is a trace of emitted operations, machine integers are `Nat`
with explicit `% 2^32` where the 32-bit parameter storage matters, and
stateful entry points become functions on an explicit `SequencerState`.
Parts of the repository that are referenced but whose sources are not
available (Sequencer.h accessors, Functions.h registry, the byte-stream
producer, MessageParser.cpp, crispy helpers) are modelled from the
specification; each such definition is marked in its doc comment.
-/

namespace Contour

/-- Modulus of the 32-bit parameter storage: `2 ^ 32`. -/
def UMAX : Nat := 4294967296

/-- Byte values of a string literal, used to write byte lists readably. -/
def strBytes (s : String) : List Nat :=
  s.data.map Char.toNat

/-- Sequence categories, from `FunctionCategory` (spec section 3). -/
inductive FunctionCategory where
  | C0
  | ESC
  | CSI
  | DCS
  | OSC
deriving DecidableEq, Repr

/-- One control sequence under assembly, from the `Sequence` record
(Sequencer.cpp / spec section 3).  A leader or final char of `0` means
absent; `parameters` is the list of groups, each group being the primary
value followed by its sub-parameter values. -/
structure Sequence where
  category : FunctionCategory
  leaderSymbol : Nat
  intermediateCharacters : List Nat
  finalChar : Nat
  parameters : List (List Nat)
  dataString : List Nat
deriving DecidableEq, Repr

/-- Modelled from the spec: a freshly cleared `Sequence` has empty
parameters, intermediates and data string, no leader and final char 0
(`Sequence::clear`, whose body lives in the Sequencer.h header that is
not part of the provided sources). -/
def Sequence.cleared : Sequence :=
  { category := FunctionCategory.C0
    leaderSymbol := 0
    intermediateCharacters := []
    finalChar := 0
    parameters := []
    dataString := [] }

/-- Modelled from the spec: `MaxParameters = 16` bounds both the number of
parameter groups and the number of values per group (spec section 3). -/
def Sequence.MaxParameters : Nat := 16

/-- Number of parameter groups (`Sequence::parameterCount`). -/
def Sequence.parameterCount (s : Sequence) : Nat :=
  s.parameters.length

/-- Modelled from the spec: `param(i)` returns the primary value of group
`i`, and 0 when the group is absent (spec section 3). -/
def Sequence.param (s : Sequence) (i : Nat) : Nat :=
  match s.parameters.get? i with
  | some (v :: _) => v
  | _ => 0

/-- Modelled from the spec: `param_or(i, d)` returns `d` when the group is
absent or its stored value is 0 (spec section 3). -/
def Sequence.param_or (s : Sequence) (i : Nat) (d : Nat) : Nat :=
  if s.param i = 0 then d else s.param i

/-- Modelled from the spec: number of sub-parameter values of group `i`
(the values following the primary one, as pinned down by the uses in
`dispatchSGR` code 4 and `impl::parseColor`). -/
def Sequence.subParameterCount (s : Sequence) (i : Nat) : Nat :=
  match s.parameters.get? i with
  | some g => g.length - 1
  | none => 0

/-- Modelled from the spec: `subparam(i, k)` is the k-th sub-value of
group `i`, i.e. the element following the primary value by `k` positions,
0 when absent (spec section 3; usage in `dispatchSGR` code 4 requires
`subparam(i, 0)` to be the first value after the primary). -/
def Sequence.subparam (s : Sequence) (i : Nat) (k : Nat) : Nat :=
  match s.parameters.get? i with
  | some g => g.getD (k + 1) 0
  | none => 0

/-- Modelled from the spec: `containsParameter(v)` is true iff some
group's primary value equals `v` (spec section 4.2). -/
def Sequence.containsParameter (s : Sequence) (v : Nat) : Bool :=
  s.parameters.any (fun g => g.headD 0 == v)

/-- Applies `f` to the last element of a list (helper for the `back()`
mutations of `Sequencer::param`). -/
def updateLast {α : Type} (f : α → α) : List α → List α
  | [] => []
  | [a] => [f a]
  | a :: b :: rest => a :: updateLast f (b :: rest)

/-- The opening guard of `Sequencer::param` (lines 885-886): an empty
parameter list receives one group holding the single value 0. -/
def ensureParams (ps : List (List Nat)) : List (List Nat) :=
  if ps.isEmpty then [[0]] else ps

/-- The switch of `Sequencer::param` (lines 888-910): `;` opens a new
group while fewer than `MaxParameters` exist, `:` opens a new sub-value
while the last group has fewer than `MaxParameters` values, and a digit
multiplies the last value by 10 and adds the digit.  The 32-bit width of
`Sequence::Parameter` is modelled from the spec (unsigned arithmetic
wraps modulo `2 ^ 32`). -/
def paramSwitch (c : Nat) (ps : List (List Nat)) : List (List Nat) :=
  if c = 59 then
    if ps.length < Sequence.MaxParameters then ps ++ [[0]] else ps
  else if c = 58 then
    updateLast (fun g =>
      if g.length < Sequence.MaxParameters then g ++ [0] else g) ps
  else if 48 ≤ c ∧ c ≤ 57 then
    updateLast (updateLast (fun v => (v * 10 + (c - 48)) % UMAX)) ps
  else ps

/-- The `Sequencer::param` entry point (Sequencer.cpp lines 883-911). -/
def Sequencer.param (c : Nat) (s : Sequence) : Sequence :=
  { s with parameters := paramSwitch c (ensureParams s.parameters) }

/-- Runs `Sequencer::param` over a stream of bytes. -/
def Sequencer.paramRun (cs : List Nat) (s : Sequence) : Sequence :=
  cs.foldl (fun acc c => Sequencer.param c acc) s

/-- The `collect` entry point: appends an intermediate byte. -/
def Sequencer.collect (c : Nat) (s : Sequence) : Sequence :=
  { s with intermediateCharacters := s.intermediateCharacters ++ [c] }

/-- The `collectLeader` entry point: sets the leader byte. -/
def Sequencer.collectLeader (c : Nat) (s : Sequence) : Sequence :=
  { s with leaderSymbol := c }

/-- Terminal modes, from the `Mode` enumeration (names per the
`to_string(Mode)` switch in Sequencer.cpp). -/
inductive Mode where
  | KeyboardAction
  | Insert
  | SendReceive
  | AutomaticNewLine
  | UseApplicationCursorKeys
  | DesignateCharsetUSASCII
  | Columns132
  | SmoothScroll
  | ReverseVideo
  | MouseProtocolX10
  | MouseProtocolNormalTracking
  | MouseProtocolHighlightTracking
  | MouseProtocolButtonTracking
  | MouseProtocolAnyEventTracking
  | SaveCursor
  | ExtendedAltScreen
  | Origin
  | AutoWrap
  | PrinterExtend
  | LeftRightMargin
  | ShowToolbar
  | BlinkingCursor
  | VisibleCursor
  | ShowScrollbar
  | AllowColumns80to132
  | UseAlternateScreen
  | BracketedPaste
  | FocusTracking
  | SixelScrolling
  | UsePrivateColorRegisters
  | MouseExtended
  | MouseSGR
  | MouseURXVT
  | MouseAlternateScroll
  | BatchedRendering
deriving DecidableEq, Repr

/-- Graphics rendition selectors, from `GraphicsRendition` as used by
`impl::dispatchSGR`. -/
inductive GraphicsRendition where
  | Reset
  | Bold
  | Faint
  | Italic
  | Underline
  | DoublyUnderlined
  | CurlyUnderlined
  | DottedUnderline
  | DashedUnderline
  | NoUnderline
  | Blinking
  | Inverse
  | Hidden
  | CrossedOut
  | Normal
  | NoItalic
  | NoBlinking
  | NoInverse
  | NoHidden
  | NoCrossedOut
  | Framed
  | Overline
  | NoFramed
  | NoOverline
deriving DecidableEq, Repr

/-- Color argument values, from the `Color` variant.  `undefined` is the
default-constructed `Color{}` produced by the failure path of
`impl::parseColor`; indexed and bright palette entries carry their index
and `rgb` the three channels. -/
inductive Color where
  | undefined
  | defaultColor
  | indexed (n : Nat)
  | bright (n : Nat)
  | rgb (r g b : Nat)
deriving DecidableEq, Repr

/-- Dynamic color slots, from `DynamicColorName`. -/
inductive DynamicColorName where
  | DefaultForegroundColor
  | DefaultBackgroundColor
  | TextCursorColor
  | MouseForegroundColor
  | MouseBackgroundColor
deriving DecidableEq, Repr

/-- Result of applying a function, from `ApplyResult`. -/
inductive ApplyResult where
  | Ok
  | Invalid
  | Unsupported
deriving DecidableEq, Repr

/-- One call into the screen interface.  The screen collaborator is
modelled as the trace of the calls the Sequencer makes on it. -/
inductive ScreenOp where
  | setMode (m : Mode) (enable : Bool)
  | setGraphicsRendition (g : GraphicsRendition)
  | setForegroundColor (c : Color)
  | setBackgroundColor (c : Color)
  | setUnderlineColor (c : Color)
  | writeText (ch : Nat)
  | bell
  | backspace
  | moveCursorToNextTab
  | linefeed
  | index
  | moveCursorToBeginOfLine
  | saveCursor
  | restoreCursor
  | moveCursorTo (line column : Nat)
  | moveCursorUp (n : Nat)
  | moveCursorDown (n : Nat)
  | clearToEndOfScreen
  | clearToBeginOfScreen
  | clearScreen
  | clearScrollbackBuffer
  | clearToEndOfLine
  | clearToBeginOfLine
  | clearLine
  | sendDeviceAttributes
  | deviceStatusReport
  | reportCursorPosition
  | requestDynamicColor (name : DynamicColorName)
  | setDynamicColor (name : DynamicColorName) (r g b : Nat)
  | sixelImage (width height : Nat) (rgba : List Nat)
  | verifyState
deriving DecidableEq, Repr

/-- The `impl::setAnsiMode` dispatcher (Sequencer.cpp lines 110-124):
mode 4 toggles Insert, modes 2, 12, 20 and everything else are
unsupported. -/
def impl.setAnsiMode (s : Sequence) (modeIndex : Nat) (enable : Bool) :
    ApplyResult × List ScreenOp :=
  match s.param modeIndex with
  | 2 => (ApplyResult.Unsupported, [])
  | 4 => (ApplyResult.Ok, [ScreenOp.setMode Mode.Insert enable])
  | _ => (ApplyResult.Unsupported, [])

/-- The `impl::toDECMode` table (Sequencer.cpp lines 126-173). -/
def impl.toDECMode (v : Nat) : Option Mode :=
  match v with
  | 1 => some Mode.UseApplicationCursorKeys
  | 2 => some Mode.DesignateCharsetUSASCII
  | 3 => some Mode.Columns132
  | 4 => some Mode.SmoothScroll
  | 5 => some Mode.ReverseVideo
  | 6 => some Mode.Origin
  | 7 => some Mode.AutoWrap
  | 9 => some Mode.MouseProtocolX10
  | 10 => some Mode.ShowToolbar
  | 12 => some Mode.BlinkingCursor
  | 19 => some Mode.PrinterExtend
  | 25 => some Mode.VisibleCursor
  | 30 => some Mode.ShowScrollbar
  | 40 => some Mode.AllowColumns80to132
  | 47 => some Mode.UseAlternateScreen
  | 69 => some Mode.LeftRightMargin
  | 80 => some Mode.SixelScrolling
  | 1000 => some Mode.MouseProtocolNormalTracking
  | 1001 => some Mode.MouseProtocolHighlightTracking
  | 1002 => some Mode.MouseProtocolButtonTracking
  | 1003 => some Mode.MouseProtocolAnyEventTracking
  | 1004 => some Mode.FocusTracking
  | 1005 => some Mode.MouseExtended
  | 1006 => some Mode.MouseSGR
  | 1007 => some Mode.MouseAlternateScroll
  | 1015 => some Mode.MouseURXVT
  | 1047 => some Mode.UseAlternateScreen
  | 1048 => some Mode.SaveCursor
  | 1049 => some Mode.ExtendedAltScreen
  | 2004 => some Mode.BracketedPaste
  | 2026 => some Mode.BatchedRendering
  | _ => none

/-- The `impl::setModeDEC` dispatcher (lines 175-183): a mapped mode is
set on the screen, an unmapped number is Invalid. -/
def impl.setModeDEC (s : Sequence) (modeIndex : Nat) (enable : Bool) :
    ApplyResult × List ScreenOp :=
  match impl.toDECMode (s.param modeIndex) with
  | some m => (ApplyResult.Ok, [ScreenOp.setMode m enable])
  | none => (ApplyResult.Invalid, [])

/-- The legacy `;`-separated tail of `impl::parseColor` (lines 228-276):
`5;P` indexed and `2;r;g;b` RGB forms, with all failure paths returning
the default color and skipping one extra parameter.  The guard of the
indexed form compares the parameter index `i`, not the value, exactly as
the source does; the cast of the value to the 8-bit `IndexedColor`
enumeration truncates modulo 256 (underlying type modelled from the
spec's 0-255 palette range). -/
def impl.parseColorLegacy (s : Sequence) (i : Nat) : Color × Nat :=
  if i + 1 < s.parameterCount then
    let i1 := i + 1
    let mode := s.param i1
    if mode = 5 then
      if i1 + 1 < s.parameterCount then
        let i2 := i1 + 1
        let value := s.param i2
        if i2 ≤ 255 then (Color.indexed (value % 256), i2)
        else (Color.undefined, i2 + 1)
      else (Color.undefined, i1 + 1)
    else if mode = 2 then
      if i1 + 3 < s.parameterCount then
        let r := s.param (i1 + 1)
        let g := s.param (i1 + 2)
        let b := s.param (i1 + 3)
        let i2 := i1 + 3
        if r ≤ 255 ∧ g ≤ 255 ∧ b ≤ 255 then (Color.rgb r g b, i2)
        else (Color.undefined, i2 + 1)
      else (Color.undefined, i1 + 1)
    else (Color.undefined, i1 + 1)
  else (Color.undefined, i + 1)

/-- The `impl::parseColor` embedded color argument decoder (lines
185-277).  Returns the parsed color together with the updated parameter
index `*pi`; the sub-parameter forms `:2:R:G:B` and `:5:P` are tried
first and fall through to the legacy parse on any mismatch. -/
def impl.parseColor (s : Sequence) (i : Nat) : Color × Nat :=
  if 1 ≤ s.subParameterCount i then
    let sp0 := s.subparam i 0
    if sp0 = 2 then
      if s.subParameterCount i = 4 then
        let r := s.subparam i 1
        let g := s.subparam i 2
        let b := s.subparam i 3
        if r ≤ 255 ∧ g ≤ 255 ∧ b ≤ 255 then (Color.rgb r g b, i + 1)
        else impl.parseColorLegacy s i
      else impl.parseColorLegacy s i
    else if sp0 = 5 then
      let p := s.subparam i 1
      if p ≤ 255 then (Color.indexed p, i + 1)
      else impl.parseColorLegacy s i
    else impl.parseColorLegacy s i
  else impl.parseColorLegacy s i

/-- Screen mutation for one SGR code as selected in the body of the
`impl::dispatchSGR` loop, excluding the color-consuming codes 38, 48 and
58 which are handled in the loop itself. -/
def impl.sgrSimple (s : Sequence) (i : Nat) : List ScreenOp :=
  match s.param i with
  | 0 => [ScreenOp.setGraphicsRendition GraphicsRendition.Reset]
  | 1 => [ScreenOp.setGraphicsRendition GraphicsRendition.Bold]
  | 2 => [ScreenOp.setGraphicsRendition GraphicsRendition.Faint]
  | 3 => [ScreenOp.setGraphicsRendition GraphicsRendition.Italic]
  | 4 =>
    if s.subParameterCount i = 1 then
      match s.subparam i 0 with
      | 0 => [ScreenOp.setGraphicsRendition GraphicsRendition.NoUnderline]
      | 1 => [ScreenOp.setGraphicsRendition GraphicsRendition.Underline]
      | 2 => [ScreenOp.setGraphicsRendition GraphicsRendition.DoublyUnderlined]
      | 3 => [ScreenOp.setGraphicsRendition GraphicsRendition.CurlyUnderlined]
      | 4 => [ScreenOp.setGraphicsRendition GraphicsRendition.DottedUnderline]
      | 5 => [ScreenOp.setGraphicsRendition GraphicsRendition.DashedUnderline]
      | _ => [ScreenOp.setGraphicsRendition GraphicsRendition.Underline]
    else [ScreenOp.setGraphicsRendition GraphicsRendition.Underline]
  | 5 => [ScreenOp.setGraphicsRendition GraphicsRendition.Blinking]
  | 7 => [ScreenOp.setGraphicsRendition GraphicsRendition.Inverse]
  | 8 => [ScreenOp.setGraphicsRendition GraphicsRendition.Hidden]
  | 9 => [ScreenOp.setGraphicsRendition GraphicsRendition.CrossedOut]
  | 21 => [ScreenOp.setGraphicsRendition GraphicsRendition.DoublyUnderlined]
  | 22 => [ScreenOp.setGraphicsRendition GraphicsRendition.Normal]
  | 23 => [ScreenOp.setGraphicsRendition GraphicsRendition.NoItalic]
  | 24 => [ScreenOp.setGraphicsRendition GraphicsRendition.NoUnderline]
  | 25 => [ScreenOp.setGraphicsRendition GraphicsRendition.NoBlinking]
  | 27 => [ScreenOp.setGraphicsRendition GraphicsRendition.NoInverse]
  | 28 => [ScreenOp.setGraphicsRendition GraphicsRendition.NoHidden]
  | 29 => [ScreenOp.setGraphicsRendition GraphicsRendition.NoCrossedOut]
  | 30 => [ScreenOp.setForegroundColor (Color.indexed 0)]
  | 31 => [ScreenOp.setForegroundColor (Color.indexed 1)]
  | 32 => [ScreenOp.setForegroundColor (Color.indexed 2)]
  | 33 => [ScreenOp.setForegroundColor (Color.indexed 3)]
  | 34 => [ScreenOp.setForegroundColor (Color.indexed 4)]
  | 35 => [ScreenOp.setForegroundColor (Color.indexed 5)]
  | 36 => [ScreenOp.setForegroundColor (Color.indexed 6)]
  | 37 => [ScreenOp.setForegroundColor (Color.indexed 7)]
  | 39 => [ScreenOp.setForegroundColor Color.defaultColor]
  | 40 => [ScreenOp.setBackgroundColor (Color.indexed 0)]
  | 41 => [ScreenOp.setBackgroundColor (Color.indexed 1)]
  | 42 => [ScreenOp.setBackgroundColor (Color.indexed 2)]
  | 43 => [ScreenOp.setBackgroundColor (Color.indexed 3)]
  | 44 => [ScreenOp.setBackgroundColor (Color.indexed 4)]
  | 45 => [ScreenOp.setBackgroundColor (Color.indexed 5)]
  | 46 => [ScreenOp.setBackgroundColor (Color.indexed 6)]
  | 47 => [ScreenOp.setBackgroundColor (Color.indexed 7)]
  | 49 => [ScreenOp.setBackgroundColor Color.defaultColor]
  | 51 => [ScreenOp.setGraphicsRendition GraphicsRendition.Framed]
  | 53 => [ScreenOp.setGraphicsRendition GraphicsRendition.Overline]
  | 54 => [ScreenOp.setGraphicsRendition GraphicsRendition.NoFramed]
  | 55 => [ScreenOp.setGraphicsRendition GraphicsRendition.NoOverline]
  | 90 => [ScreenOp.setForegroundColor (Color.bright 0)]
  | 91 => [ScreenOp.setForegroundColor (Color.bright 1)]
  | 92 => [ScreenOp.setForegroundColor (Color.bright 2)]
  | 93 => [ScreenOp.setForegroundColor (Color.bright 3)]
  | 94 => [ScreenOp.setForegroundColor (Color.bright 4)]
  | 95 => [ScreenOp.setForegroundColor (Color.bright 5)]
  | 96 => [ScreenOp.setForegroundColor (Color.bright 6)]
  | 97 => [ScreenOp.setForegroundColor (Color.bright 7)]
  | 100 => [ScreenOp.setBackgroundColor (Color.bright 0)]
  | 101 => [ScreenOp.setBackgroundColor (Color.bright 1)]
  | 102 => [ScreenOp.setBackgroundColor (Color.bright 2)]
  | 103 => [ScreenOp.setBackgroundColor (Color.bright 3)]
  | 104 => [ScreenOp.setBackgroundColor (Color.bright 4)]
  | 105 => [ScreenOp.setBackgroundColor (Color.bright 5)]
  | 106 => [ScreenOp.setBackgroundColor (Color.bright 6)]
  | 107 => [ScreenOp.setBackgroundColor (Color.bright 7)]
  | _ => []

/-- The iteration of the `impl::dispatchSGR` for-loop, with the running
parameter index made explicit.  The fuel argument is only there to bound
the recursion; the index strictly increases each step so an initial fuel
of `parameterCount` suffices.  Codes 38, 48 and 58 hand the index to
`parseColor` and resume one past the index it returns, exactly as the
`++i` of the source loop does after `parseColor` wrote through `*pi`. -/
def impl.sgrLoop (s : Sequence) : Nat → Nat → List ScreenOp
  | 0, _ => []
  | fuel + 1, i =>
    if i < s.parameterCount then
      match s.param i with
      | 38 =>
        let pc := impl.parseColor s i
        ScreenOp.setForegroundColor pc.1 :: impl.sgrLoop s fuel (pc.2 + 1)
      | 48 =>
        let pc := impl.parseColor s i
        ScreenOp.setBackgroundColor pc.1 :: impl.sgrLoop s fuel (pc.2 + 1)
      | 58 =>
        let pc := impl.parseColor s i
        ScreenOp.setUnderlineColor pc.1 :: impl.sgrLoop s fuel (pc.2 + 1)
      | _ => impl.sgrSimple s i ++ impl.sgrLoop s fuel (i + 1)
    else []

/-- The `impl::dispatchSGR` dispatcher (lines 279-370): an empty
parameter list resets the rendition, otherwise the parameters are
interpreted in order; the result is always Ok. -/
def impl.dispatchSGR (s : Sequence) : ApplyResult × List ScreenOp :=
  if s.parameterCount = 0 then
    (ApplyResult.Ok, [ScreenOp.setGraphicsRendition GraphicsRendition.Reset])
  else
    (ApplyResult.Ok, impl.sgrLoop s s.parameterCount 0)

/-- The `impl::CPR` dispatcher (lines 446-454). -/
def impl.CPR (s : Sequence) : ApplyResult × List ScreenOp :=
  match s.param 0 with
  | 5 => (ApplyResult.Ok, [ScreenOp.deviceStatusReport])
  | 6 => (ApplyResult.Ok, [ScreenOp.reportCursorPosition])
  | _ => (ApplyResult.Unsupported, [])

/-- The `impl::ED` dispatcher (lines 494-512). -/
def impl.ED (s : Sequence) : ApplyResult × List ScreenOp :=
  if s.parameterCount = 0 then
    (ApplyResult.Ok, [ScreenOp.clearToEndOfScreen])
  else
    (ApplyResult.Ok,
      (List.range s.parameterCount).flatMap (fun i =>
        match s.param i with
        | 0 => [ScreenOp.clearToEndOfScreen]
        | 1 => [ScreenOp.clearToBeginOfScreen]
        | 2 => [ScreenOp.clearScreen]
        | 3 => [ScreenOp.clearScrollbackBuffer]
        | _ => []))

/-- The `impl::EL` dispatcher (lines 514-524). -/
def impl.EL (s : Sequence) : ApplyResult × List ScreenOp :=
  match s.param_or 0 0 with
  | 0 => (ApplyResult.Ok, [ScreenOp.clearToEndOfLine])
  | 1 => (ApplyResult.Ok, [ScreenOp.clearToBeginOfLine])
  | 2 => (ApplyResult.Ok, [ScreenOp.clearLine])
  | _ => (ApplyResult.Invalid, [])

/-- Hexadecimal value of one byte, `none` when the byte is not a hex
digit. -/
def hexDigit (c : Nat) : Option Nat :=
  if 48 ≤ c ∧ c ≤ 57 then some (c - 48)
  else if 65 ≤ c ∧ c ≤ 70 then some (c - 55)
  else if 97 ≤ c ∧ c ≤ 102 then some (c - 87)
  else none

/-- Modelled from the spec: `crispy::strntoul(p, 4, nullptr, 16)` on one
16-bit color group of the `rgb:RRRR/GGGG/BBBB` literal; the group parses
when all four bytes are hexadecimal digits, anything else is a parse
failure (spec: parse failures return Invalid).  crispy/utils.h is not
part of the provided sources. -/
def hex4 (cs : List Nat) : Option Nat :=
  match cs with
  | [a, b, c, d] =>
    match hexDigit a, hexDigit b, hexDigit c, hexDigit d with
    | some va, some vb, some vc, some vd =>
      some (va * 4096 + vb * 256 + vc * 16 + vd)
    | _, _, _, _ => none
  | _ => none

/-- The `Sequencer::parseColor` dynamic-color literal parser (Sequencer.cpp
lines 1528-1552): exactly 18 bytes `rgb:RRRR/GGGG/BBBB`, each channel
truncated to its low byte via `& 0xFF`. -/
def Sequencer.parseColor (v : List Nat) : Option (Nat × Nat × Nat) :=
  if v.length = 18 ∧ v.take 4 = strBytes "rgb:" ∧
      v.getD 8 0 = 47 ∧ v.getD 13 0 = 47 then
    match hex4 ((v.drop 4).take 4), hex4 ((v.drop 9).take 4),
        hex4 ((v.drop 14).take 4) with
    | some r, some g, some b => some (r % 256, g % 256, b % 256)
    | _, _, _ => none
  else none

/-- The `impl::setOrRequestDynamicColor` dispatcher (lines 548-559): a
`?` payload queries the named color, a parsable `rgb:` literal sets it,
anything else is Invalid with no screen call. -/
def impl.setOrRequestDynamicColor (s : Sequence) (name : DynamicColorName) :
    ApplyResult × List ScreenOp :=
  let value := s.intermediateCharacters
  if value = strBytes "?" then
    (ApplyResult.Ok, [ScreenOp.requestDynamicColor name])
  else
    match Sequencer.parseColor value with
    | some c => (ApplyResult.Ok, [ScreenOp.setDynamicColor name c.1 c.2.1 c.2.2])
    | none => (ApplyResult.Invalid, [])

/-- Function identities of the subset of the registry needed here, from
the tags used in `Sequencer::apply`. -/
inductive FunctionDef where
  | BEL
  | BS
  | TAB
  | LF
  | VT
  | FF
  | CR
  | CUU
  | CUD
  | CUP
  | ED
  | EL
  | SGR
  | SM
  | RM
  | DECSM
  | DECRM
  | DA1
  | CPR
  | COLORFG
  | COLORBG
  | COLORCURSOR
  | COLORMOUSEFG
  | COLORMOUSEBG
deriving DecidableEq, Repr

/-- Modelled from the spec: the function registry lookup
(`Sequence::functionDefinition`, Functions.h not in the provided
sources).  Selectors follow spec sections 4.3 and 6 and the glossary:
C0 entries for the seven control bytes appearing in `Sequencer::apply`,
CSI functions keyed on leader and final byte (DECSM = CSI `?`..`h`,
DECRM = CSI `?`..`l`, SGR = CSI..`m`, and the plain cursor, erase, mode
and report functions), OSC dynamic-color functions keyed on the leading
code 10/11/12/17/19. -/
def Sequence.functionDefinition (s : Sequence) : Option FunctionDef :=
  match s.category with
  | FunctionCategory.C0 =>
    match s.finalChar with
    | 7 => some FunctionDef.BEL
    | 8 => some FunctionDef.BS
    | 9 => some FunctionDef.TAB
    | 10 => some FunctionDef.LF
    | 11 => some FunctionDef.VT
    | 12 => some FunctionDef.FF
    | 13 => some FunctionDef.CR
    | _ => none
  | FunctionCategory.CSI =>
    if s.intermediateCharacters ≠ [] then none
    else if s.leaderSymbol = 63 then
      match s.finalChar with
      | 104 => some FunctionDef.DECSM
      | 108 => some FunctionDef.DECRM
      | _ => none
    else if s.leaderSymbol = 0 then
      match s.finalChar with
      | 65 => some FunctionDef.CUU
      | 66 => some FunctionDef.CUD
      | 72 => some FunctionDef.CUP
      | 74 => some FunctionDef.ED
      | 75 => some FunctionDef.EL
      | 99 => some FunctionDef.DA1
      | 104 => some FunctionDef.SM
      | 108 => some FunctionDef.RM
      | 109 => some FunctionDef.SGR
      | 110 => some FunctionDef.CPR
      | _ => none
    else none
  | FunctionCategory.OSC =>
    match s.param 0 with
    | 10 => some FunctionDef.COLORFG
    | 11 => some FunctionDef.COLORBG
    | 12 => some FunctionDef.COLORCURSOR
    | 17 => some FunctionDef.COLORMOUSEFG
    | 19 => some FunctionDef.COLORMOUSEBG
    | _ => none
  | _ => none

/-- Modelled from the spec: the `isBatchable` flag of a function
definition (Functions.h not in the provided sources).  Side-effect-free
queries — device attributes and status/cursor-position reports — are not
batchable and must be applied immediately; every other function is
batchable (spec section 4.3). -/
def isBatchable (f : FunctionDef) : Bool :=
  match f with
  | FunctionDef.DA1 => false
  | FunctionDef.CPR => false
  | _ => true

/-- One entry of the batch queue, from the `variant<char32_t, Sequence,
SixelImage>` held in `batchedSequences_`. -/
inductive Batchable where
  | ch (c : Nat)
  | seq (s : Sequence)
  | image (width height : Nat) (rgba : List Nat)
deriving DecidableEq, Repr

/-- The Sequencer controller state: the current Sequence, the batching
flag, the batch queue, the instruction counter, and the trace of calls
made on the screen collaborator. -/
structure SequencerState where
  sequence : Sequence
  batching : Bool
  batchedSequences : List Batchable
  instructionCounter : Nat
  trace : List ScreenOp
deriving DecidableEq, Repr

/-- The initial controller state: cleared sequence, batching off, empty
queue and trace. -/
def SequencerState.initial : SequencerState :=
  { sequence := Sequence.cleared
    batching := false
    batchedSequences := []
    instructionCounter := 0
    trace := [] }

/-- Screen mutations of applying one resolved function, i.e. the switch
body of `Sequencer::apply` (lines 1397-1525) restricted to the modelled
subset, without the batching interception.  Mode list functions iterate
`setModeDEC`/`setAnsiMode` over all parameter groups discarding their
individual results, exactly as the `for_each` calls do. -/
def applyEffects (f : FunctionDef) (s : Sequence) : ApplyResult × List ScreenOp :=
  match f with
  | FunctionDef.BEL => (ApplyResult.Ok, [ScreenOp.bell])
  | FunctionDef.BS => (ApplyResult.Ok, [ScreenOp.backspace])
  | FunctionDef.TAB => (ApplyResult.Ok, [ScreenOp.moveCursorToNextTab])
  | FunctionDef.LF => (ApplyResult.Ok, [ScreenOp.linefeed])
  | FunctionDef.VT => (ApplyResult.Ok, [ScreenOp.index])
  | FunctionDef.FF => (ApplyResult.Ok, [ScreenOp.index])
  | FunctionDef.CR => (ApplyResult.Ok, [ScreenOp.moveCursorToBeginOfLine])
  | FunctionDef.CUU => (ApplyResult.Ok, [ScreenOp.moveCursorUp (s.param_or 0 1)])
  | FunctionDef.CUD => (ApplyResult.Ok, [ScreenOp.moveCursorDown (s.param_or 0 1)])
  | FunctionDef.CUP =>
    (ApplyResult.Ok, [ScreenOp.moveCursorTo (s.param_or 0 1) (s.param_or 1 1)])
  | FunctionDef.ED => impl.ED s
  | FunctionDef.EL => impl.EL s
  | FunctionDef.SGR => impl.dispatchSGR s
  | FunctionDef.SM =>
    (ApplyResult.Ok,
      (List.range s.parameterCount).flatMap
        (fun i => (impl.setAnsiMode s i true).2))
  | FunctionDef.RM =>
    (ApplyResult.Ok,
      (List.range s.parameterCount).flatMap
        (fun i => (impl.setAnsiMode s i false).2))
  | FunctionDef.DECSM =>
    (ApplyResult.Ok,
      (List.range s.parameterCount).flatMap
        (fun i => (impl.setModeDEC s i true).2))
  | FunctionDef.DECRM =>
    (ApplyResult.Ok,
      (List.range s.parameterCount).flatMap
        (fun i => (impl.setModeDEC s i false).2))
  | FunctionDef.DA1 => (ApplyResult.Ok, [ScreenOp.sendDeviceAttributes])
  | FunctionDef.CPR => impl.CPR s
  | FunctionDef.COLORFG =>
    impl.setOrRequestDynamicColor s DynamicColorName.DefaultForegroundColor
  | FunctionDef.COLORBG =>
    impl.setOrRequestDynamicColor s DynamicColorName.DefaultBackgroundColor
  | FunctionDef.COLORCURSOR =>
    impl.setOrRequestDynamicColor s DynamicColorName.TextCursorColor
  | FunctionDef.COLORMOUSEFG =>
    impl.setOrRequestDynamicColor s DynamicColorName.MouseForegroundColor
  | FunctionDef.COLORMOUSEBG =>
    impl.setOrRequestDynamicColor s DynamicColorName.MouseBackgroundColor

/-- The `Sequencer::apply` entry (lines 1385-1526): when batching is on
and the function is batchable the sequence is appended to the batch
queue, otherwise its effects are emitted on the screen. -/
def Sequencer.apply (f : FunctionDef) (s : Sequence) (st : SequencerState) :
    SequencerState :=
  if st.batching && isBatchable f then
    { st with batchedSequences := st.batchedSequences ++ [Batchable.seq s] }
  else
    { st with trace := st.trace ++ (applyEffects f s).2 }

/-- The `Sequencer::print` entry (lines 852-861): queued while batching,
otherwise written to the screen with the instruction counter bumped. -/
def Sequencer.print (c : Nat) (st : SequencerState) : SequencerState :=
  if st.batching then
    { st with batchedSequences := st.batchedSequences ++ [Batchable.ch c] }
  else
    { st with
        instructionCounter := st.instructionCounter + 1
        trace := st.trace ++ [ScreenOp.writeText c] }

/-- Replay of one batch entry inside `Sequencer::flushBatchedSequences`
(lines 1363-1382): characters go through `print`, sequences are resolved
and applied, images are pushed to the screen. -/
def flushOne (st : SequencerState) (b : Batchable) : SequencerState :=
  match b with
  | Batchable.ch c => Sequencer.print c st
  | Batchable.seq s =>
    match s.functionDefinition with
    | some f => Sequencer.apply f s st
    | none => st
  | Batchable.image w h rgba =>
    { st with trace := st.trace ++ [ScreenOp.sixelImage w h rgba] }

/-- The `Sequencer::flushBatchedSequences` entry: replays the queue in
insertion order and then empties it. -/
def Sequencer.flushBatchedSequences (st : SequencerState) : SequencerState :=
  let st := st.batchedSequences.foldl flushOne st
  { st with batchedSequences := [] }

/-- The `Sequencer::handleSequence` entry (lines 1328-1361): set-mode
with parameter 2026 turns batching on and then applies, reset-mode with
2026 turns batching off, flushes and applies, a batchable function under
batching is queued, anything else is applied; known sequences end with a
`verifyState` call on the screen, unknown ones are only logged. -/
def Sequencer.handleSequence (st : SequencerState) : SequencerState :=
  let st := { st with instructionCounter := st.instructionCounter + 1 }
  match st.sequence.functionDefinition with
  | none => st
  | some f =>
    let st1 :=
      if f = FunctionDef.DECSM && st.sequence.containsParameter 2026 then
        Sequencer.apply f st.sequence { st with batching := true }
      else if f = FunctionDef.DECRM && st.sequence.containsParameter 2026 then
        let st2 := Sequencer.flushBatchedSequences { st with batching := false }
        Sequencer.apply f st.sequence st2
      else if st.batching && isBatchable f then
        { st with batchedSequences := st.batchedSequences ++ [Batchable.seq st.sequence] }
      else
        Sequencer.apply f st.sequence st
    { st1 with trace := st1.trace ++ [ScreenOp.verifyState] }

/-- The `Sequencer::executeControlFunction` entry (lines 1278-1326):
while batching a synthetic C0 sequence is assembled and handed to
`handleSequence`; otherwise the control byte acts on the screen at once
(unrecognized bytes are only logged). -/
def Sequencer.executeControlFunction (c0 : Nat) (st : SequencerState) :
    SequencerState :=
  if st.batching then
    Sequencer.handleSequence
      { st with sequence :=
          { Sequence.cleared with
              category := FunctionCategory.C0
              finalChar := c0 } }
  else
    let st := { st with instructionCounter := st.instructionCounter + 1 }
    let ops : List ScreenOp :=
      match c0 with
      | 7 => [ScreenOp.bell]
      | 8 => [ScreenOp.backspace]
      | 9 => [ScreenOp.moveCursorToNextTab]
      | 10 => [ScreenOp.linefeed]
      | 11 => [ScreenOp.index]
      | 12 => [ScreenOp.index]
      | 13 => [ScreenOp.moveCursorToBeginOfLine]
      | 55 => [ScreenOp.saveCursor]
      | 56 => [ScreenOp.restoreCursor]
      | _ => []
    { st with trace := st.trace ++ ops }

/-- The `Sequencer::execute` entry, forwarding to
`executeControlFunction`. -/
def Sequencer.execute (c0 : Nat) (st : SequencerState) : SequencerState :=
  Sequencer.executeControlFunction c0 st

/-- The `Sequencer::dispatchCSI` entry: finalizes the category and final
byte and handles the sequence. -/
def Sequencer.dispatchCSI (finalChar : Nat) (st : SequencerState) :
    SequencerState :=
  Sequencer.handleSequence
    { st with sequence :=
        { st.sequence with
            category := FunctionCategory.CSI
            finalChar := finalChar } }

/-- The `Sequencer::dispatchESC` entry, analogous to `dispatchCSI`. -/
def Sequencer.dispatchESC (finalChar : Nat) (st : SequencerState) :
    SequencerState :=
  Sequencer.handleSequence
    { st with sequence :=
        { st.sequence with
            category := FunctionCategory.ESC
            finalChar := finalChar } }

/-- The leading-code parse of an OSC payload (`parseOSC`, lines 62-81):
accumulated decimal digits, or the negated first byte when it is neither
a digit nor `;`, then an optional `;` is skipped.  Returns the code and
the number of bytes consumed. -/
def parseOSC (data : List Nat) : Int × Nat :=
  let digits := data.takeWhile (fun c => 48 ≤ c && c ≤ 57)
  let code : Int := digits.foldl (fun a c => a * 10 + (Int.ofNat c - 48)) 0
  let i := digits.length
  let codeI : Int × Nat :=
    if i = 0 ∧ data ≠ [] ∧ data.getD 0 0 ≠ 59 then
      (-(Int.ofNat (data.getD 0 0)), 1)
    else (code, i)
  if data.getD codeI.2 0 = 59 ∧ codeI.2 < data.length then
    (codeI.1, codeI.2 + 1)
  else codeI

/-- The `Sequencer::dispatchOSC` entry (lines 941-948): the leading code
becomes the primary parameter (cast to the unsigned 32-bit parameter
type), the consumed bytes are stripped from the intermediates, the
sequence is handled and then cleared. -/
def Sequencer.dispatchOSC (st : SequencerState) : SequencerState :=
  let p := parseOSC st.sequence.intermediateCharacters
  let st1 := Sequencer.handleSequence
    { st with sequence :=
        { st.sequence with
            parameters := st.sequence.parameters ++ [[(p.1.emod (Int.ofNat UMAX)).toNat]]
            intermediateCharacters := st.sequence.intermediateCharacters.drop p.2 } }
  { st1 with sequence := Sequence.cleared }

/-- Decimal digits of `n`, least significant first; the fuel argument
only bounds the recursion and any fuel at least `n` is exact. -/
def natDigitsRevF : Nat → Nat → List Nat
  | 0, _ => []
  | fuel + 1, n => if n = 0 then [] else n % 10 :: natDigitsRevF fuel (n / 10)

/-- Decimal digits of `n`, most significant first, with `0` rendered as
the single digit 0. -/
def digitsMSB (n : Nat) : List Nat :=
  if n = 0 then [0] else (natDigitsRevF n n).reverse

/-- Byte string of the decimal rendering of `n`, as `sstr << n`
produces it. -/
def natDecimalBytes (n : Nat) : List Nat :=
  (digitsMSB n).map (fun d => 48 + d)

/-- Byte lists joined by `;`, as the parameter loop of `Sequence::raw`
emits the separator before every group but the first. -/
def joinSemicolon : List (List Nat) → List Nat
  | [] => []
  | [x] => x
  | x :: y :: rest => x ++ 59 :: joinSemicolon (y :: rest)

/-- Rendering of the parameter section in `Sequence::raw` (lines
757-768): groups joined by `;`, each group its primary value followed by
`:`-separated sub-values — the source loop runs `k` from 1 while
`k < subParameterCount(i)` and prints `subparam(i, k)`, so the first
sub-value of every group is skipped. -/
def Sequence.rawParams (s : Sequence) : List Nat :=
  joinSemicolon
    ((List.range s.parameterCount).map (fun i =>
      natDecimalBytes (s.param i) ++
        (((List.range (s.subParameterCount i)).drop 1).map
          (fun k => 58 :: natDecimalBytes (s.subparam i k))).flatten))

/-- The `Sequence::raw` serializer (lines 744-779): category prefix,
parameters when there is more than one group or a single group with a
nonzero first value, intermediates, final char when nonzero, and the
data string with its terminator.  The leader symbol is not emitted. -/
def Sequence.raw (s : Sequence) : List Nat :=
  (match s.category with
   | FunctionCategory.C0 => []
   | FunctionCategory.ESC => [27]
   | FunctionCategory.CSI => [27, 91]
   | FunctionCategory.DCS => [27, 80]
   | FunctionCategory.OSC => [27, 93]) ++
  (if 1 < s.parameterCount ∨
      (s.parameterCount = 1 ∧ (s.parameters.headD []).headD 0 ≠ 0) then
    s.rawParams
   else []) ++
  s.intermediateCharacters ++
  (if s.finalChar ≠ 0 then [s.finalChar] else []) ++
  (if s.dataString ≠ [] then s.dataString ++ [27, 92] else [])

/-- Modelled from the spec: the CSI body loop of the reference byte-stream
producer (the external event producer of spec section 6), driving the
Sequencer assembly entry points: bytes `0x30`-`0x3B` go to `param`,
`0x3C`-`0x3F` set the leader, `0x20`-`0x2F` are collected as
intermediates, and a final byte `0x40`-`0x7E` ends the sequence. -/
def producerCSIBody : List Nat → Sequence → Option Sequence
  | [], _ => none
  | c :: rest, s =>
    if 48 ≤ c ∧ c ≤ 59 then producerCSIBody rest (Sequencer.param c s)
    else if 60 ≤ c ∧ c ≤ 63 then producerCSIBody rest (Sequencer.collectLeader c s)
    else if 32 ≤ c ∧ c ≤ 47 then producerCSIBody rest (Sequencer.collect c s)
    else if 64 ≤ c ∧ c ≤ 126 then
      if rest = [] then
        some { s with category := FunctionCategory.CSI, finalChar := c }
      else none
    else none

/-- Modelled from the spec: the reference producer applied to a whole
byte string (CSI framing only, which is what the round-trip claim needs
for parameterized sequences): `ESC [`, then the CSI body against a
cleared Sequence. -/
def producerParse (bytes : List Nat) : Option Sequence :=
  match bytes with
  | 27 :: 91 :: rest => producerCSIBody rest Sequence.cleared
  | _ => none

/-- Value of one base64 alphabet byte. -/
def base64Val (c : Nat) : Option Nat :=
  if 65 ≤ c ∧ c ≤ 90 then some (c - 65)
  else if 97 ≤ c ∧ c ≤ 122 then some (c - 71)
  else if 48 ≤ c ∧ c ≤ 57 then some (c + 4)
  else if c = 43 then some 62
  else if c = 47 then some 63
  else none

/-- Modelled from the spec: `crispy::base64::decode` (crispy/base64.h is
not part of the provided sources): standard base64, groups of four
alphabet bytes yielding three octets, with `=` padding allowed in the
final group; any other shape is a decode failure. -/
def base64Decode : List Nat → Option (List Nat)
  | [] => some []
  | a :: b :: c :: d :: rest =>
    match base64Val a, base64Val b with
    | some va, some vb =>
      if c = 61 ∧ d = 61 ∧ rest = [] then
        some [va * 4 + vb / 16]
      else
        match base64Val c with
        | some vc =>
          if d = 61 ∧ rest = [] then
            some [va * 4 + vb / 16, (vb % 16) * 16 + vc / 4]
          else
            match base64Val d with
            | some vd =>
              match base64Decode rest with
              | some tail =>
                some ([va * 4 + vb / 16, (vb % 16) * 16 + vc / 4,
                       (vc % 4) * 64 + vd] ++ tail)
              | none => none
            | none => none
        | none => none
    | _, _ => none
  | _ => none

/-- The message parser states (MessageParser.h lines 113-118). -/
inductive MPState where
  | ParamKey
  | ParamValue
  | BodyStart
  | Body
deriving DecidableEq, Repr

/-- Header map and body of a parsed `Message` (MessageParser.h):
headers as an association list whose later duplicates overwrite earlier
ones in place. -/
structure Message where
  headers : List (List Nat × List Nat)
  body : List Nat
deriving DecidableEq, Repr

/-- Overwriting insertion into the header map (duplicate header names
override the previously declared ones). -/
def insertHeader (hs : List (List Nat × List Nat)) (k v : List Nat) :
    List (List Nat × List Nat) :=
  if hs.any (fun p => p.1 == k) then
    hs.map (fun p => if p.1 == k then (k, v) else p)
  else hs ++ [(k, v)]

/-- Modelled from the spec: the size caps of MessageParser.h (these four
constants are declared in the header that is part of the sources). -/
def MaxKeyLength : Nat := 64

/-- Value length cap of MessageParser.h. -/
def MaxValueLength : Nat := 512

/-- Header count cap of MessageParser.h. -/
def MaxParamCount : Nat := 32

/-- Body length cap of MessageParser.h. -/
def MaxBodyLength : Nat := 8 * 1024 * 1024

/-- In-flight state of the message parser. -/
structure MParser where
  state : MPState
  parsedKey : List Nat
  parsedValue : List Nat
  headers : List (List Nat × List Nat)
  body : List Nat
deriving DecidableEq, Repr

/-- The parser's initial state. -/
def MParser.initial : MParser :=
  { state := MPState.ParamKey
    parsedKey := []
    parsedValue := []
    headers := []
    body := [] }

/-- Modelled from the spec: the pending-header flush of
MessageParser.cpp (not in the provided sources; spec section 4.1).  The
pair is committed only when the key is non-empty; a value starting with
`!` has its remainder base64-decoded, a failing decode stores the raw
un-prefixed bytes; the header count cap drops a new key quietly. -/
def MParser.flushHeader (p : MParser) : MParser :=
  if p.parsedKey = [] then
    { p with parsedValue := [] }
  else
    let value :=
      match p.parsedValue with
      | 33 :: rest =>
        match base64Decode rest with
        | some bs => bs
        | none => rest
      | v => v
    let hs :=
      if p.headers.length < MaxParamCount ∨ p.headers.any (fun q => q.1 == p.parsedKey) then
        insertHeader p.headers p.parsedKey value
      else p.headers
    { p with parsedKey := [], parsedValue := [], headers := hs }

/-- Modelled from the spec: the per-byte transition `MessageParser::pass`
(MessageParser.cpp not in the provided sources; spec section 4.1). -/
def MParser.pass (p : MParser) (c : Nat) : MParser :=
  match p.state with
  | MPState.ParamKey =>
    if c = 61 then { p with state := MPState.ParamValue }
    else if c = 44 then p.flushHeader
    else if c = 59 then { p.flushHeader with state := MPState.BodyStart }
    else if p.parsedKey.length < MaxKeyLength then
      { p with parsedKey := p.parsedKey ++ [c] }
    else p
  | MPState.ParamValue =>
    if c = 44 then { p.flushHeader with state := MPState.ParamKey }
    else if c = 59 then { p.flushHeader with state := MPState.BodyStart }
    else if p.parsedValue.length < MaxValueLength then
      { p with parsedValue := p.parsedValue ++ [c] }
    else p
  | MPState.BodyStart =>
    { p with state := MPState.Body, body := p.body ++ [c] }
  | MPState.Body =>
    if p.body.length < MaxBodyLength then { p with body := p.body ++ [c] }
    else p

/-- Modelled from the spec: `MessageParser::finalize` flushes the
pending header and assembles the Message. -/
def MParser.finalize (p : MParser) : Message :=
  let p := p.flushHeader
  { headers := p.headers, body := p.body }

/-- Modelled from the spec: `MessageParser::parse` runs the byte-driven
state machine over the whole input and finalizes. -/
def MessageParser.parse (input : List Nat) : Message :=
  (input.foldl MParser.pass MParser.initial).finalize

/-- Header lookup, from `Message::header`. -/
def Message.header (m : Message) (k : List Nat) : Option (List Nat) :=
  (m.headers.find? (fun p => p.1 == k)).map (fun p => p.2)

/-- Screen mutations a queue replay produces, entry by entry in
insertion order (the specification-side rendering of
`flushBatchedSequences`). -/
def batchEffects (bs : List Batchable) : List ScreenOp :=
  bs.flatMap (fun b =>
    match b with
    | Batchable.ch c => [ScreenOp.writeText c]
    | Batchable.seq s =>
      match s.functionDefinition with
      | some f => (applyEffects f s).2
      | none => []
    | Batchable.image w h rgba => [ScreenOp.sixelImage w h rgba])

/-- The synthetic C0 sequence `executeControlFunction` assembles while
batching. -/
def synthC0 (c0 : Nat) : Sequence :=
  { Sequence.cleared with
      category := FunctionCategory.C0
      finalChar := c0 }

/-- Specification-side screen operation of each dispatchable C0 byte
(spec section 4.5: BEL, BS, TAB, LF, VT, FF, CR). -/
def c0Op (c0 : Nat) : ScreenOp :=
  match c0 with
  | 7 => ScreenOp.bell
  | 8 => ScreenOp.backspace
  | 9 => ScreenOp.moveCursorToNextTab
  | 10 => ScreenOp.linefeed
  | 11 => ScreenOp.index
  | 12 => ScreenOp.index
  | _ => ScreenOp.moveCursorToBeginOfLine

/-- Synchronized-output bookkeeping events: the BatchedRendering mode
transitions and the `verifyState` invariant hook. -/
def isSyncEvent (op : ScreenOp) : Bool :=
  match op with
  | ScreenOp.setMode Mode.BatchedRendering _ => true
  | ScreenOp.verifyState => true
  | _ => false

/-- A trace with the synchronized-output bookkeeping removed. -/
def visibleTrace (ops : List ScreenOp) : List ScreenOp :=
  ops.filter (fun op => !isSyncEvent op)

/-- A sequence that resolves to a batchable function and, when that
function is a DEC mode set or reset, does not itself carry the
synchronized-output mode 2026. -/
def plainBatchable (s : Sequence) : Prop :=
  ∃ f, s.functionDefinition = some f ∧ isBatchable f = true ∧
    ((f = FunctionDef.DECSM ∨ f = FunctionDef.DECRM) →
      s.containsParameter 2026 = false)

/-- Parameter-list shape invariant: at most `MaxParameters` groups, each
non-empty with at most `MaxParameters` values. -/
def paramsWellFormed (ps : List (List Nat)) : Prop :=
  ps.length ≤ Sequence.MaxParameters ∧
    ∀ g ∈ ps, g ≠ [] ∧ g.length ≤ Sequence.MaxParameters

/-- Feeding a list of completed sequences to `handleSequence` one after
the other, as the producer does after assembling each of them. -/
def Sequencer.runSequences (ss : List Sequence) (st : SequencerState) :
    SequencerState :=
  ss.foldl (fun a s => Sequencer.handleSequence { a with sequence := s }) st

/-- Plain decimal accumulation of most-significant-first digits. -/
def valFold (a : Nat) (ds : List Nat) : Nat :=
  ds.foldl (fun x d => x * 10 + d) a

/-- Decimal accumulation as `Sequencer::param` performs it on digit
bytes: multiply by ten, add the digit, reduce modulo the 32-bit range. -/
def byteFold (a : Nat) (cs : List Nat) : Nat :=
  cs.foldl (fun x c => (x * 10 + (c - 48)) % UMAX) a

/-- Specification-side shape of the dynamic-color literal: exactly 18
bytes `rgb:RRRR/GGGG/BBBB` with hexadecimal digit groups. -/
def isRgbSpecLiteral (v : List Nat) : Bool :=
  decide (v.length = 18 ∧ v.take 4 = strBytes "rgb:" ∧
    v.getD 8 0 = 47 ∧ v.getD 13 0 = 47) &&
  (hex4 ((v.drop 4).take 4)).isSome &&
  (hex4 ((v.drop 9).take 4)).isSome &&
  (hex4 ((v.drop 14).take 4)).isSome

/-- A CSI sequence with single-valued parameter groups, no leader, no
intermediates and no data string. -/
def mkCSIseq (vs : List Nat) (finalChar : Nat) : Sequence :=
  { Sequence.cleared with
      category := FunctionCategory.CSI
      finalChar := finalChar
      parameters := vs.map (fun v => [v]) }

/-- An OSC sequence carrying the given payload as its intermediates. -/
def mkOSCseq (code : Nat) (payload : List Nat) : Sequence :=
  { Sequence.cleared with
      category := FunctionCategory.OSC
      parameters := [[code]]
      intermediateCharacters := payload }

/-- An SGR sequence over the given parameter groups. -/
def mkSGRseq (ps : List (List Nat)) : Sequence :=
  { Sequence.cleared with
      category := FunctionCategory.CSI
      finalChar := 109
      parameters := ps }

/-- The `CSI ? 2026 h` set-mode sequence enabling synchronized output. -/
def decsm2026Seq : Sequence :=
  { Sequence.cleared with
      category := FunctionCategory.CSI
      leaderSymbol := 63
      finalChar := 104
      parameters := [[2026]] }

/-- The `CSI ? 2026 l` reset-mode sequence disabling synchronized
output. -/
def decrm2026Seq : Sequence :=
  { Sequence.cleared with
      category := FunctionCategory.CSI
      leaderSymbol := 63
      finalChar := 108
      parameters := [[2026]] }

/-- The `CSI 1 m` bold SGR sequence. -/
def sgrBoldSeq : Sequence := mkSGRseq [[1]]

/-! Helper lemmas shared by the claim proofs. -/

theorem updateLast_length {α : Type} (f : α → α) :
    ∀ l : List α, (updateLast f l).length = l.length
  | [] => rfl
  | [_] => rfl
  | _ :: b :: rest => by
    simpa [updateLast] using updateLast_length f (b :: rest)

theorem updateLast_pres {α : Type} {P : α → Prop} {f : α → α}
    (hf : ∀ a, P a → P (f a)) :
    ∀ l : List α, (∀ a ∈ l, P a) → ∀ a ∈ updateLast f l, P a
  | [], _, a, ha => by cases ha
  | [b], hl, a, ha => by
    simp only [updateLast, List.mem_singleton] at ha
    exact ha ▸ hf b (hl b (List.mem_singleton.mpr rfl))
  | b :: c :: rest, hl, a, ha => by
    simp only [updateLast, List.mem_cons] at ha
    rcases ha with h | h
    · exact h ▸ hl b (List.mem_cons_self b _)
    · exact updateLast_pres hf (c :: rest)
        (fun x hx => hl x (List.mem_cons_of_mem b hx)) a
        (by simpa [updateLast] using h)

theorem apply_seq_field (f : FunctionDef) (s : Sequence) (st : SequencerState) :
    (Sequencer.apply f s st).sequence = st.sequence := by
  unfold Sequencer.apply
  split <;> rfl

theorem print_seq_field (c : Nat) (st : SequencerState) :
    (Sequencer.print c st).sequence = st.sequence := by
  unfold Sequencer.print
  split <;> rfl

theorem flushOne_seq_field (st : SequencerState) (b : Batchable) :
    (flushOne st b).sequence = st.sequence := by
  cases b with
  | ch c => exact print_seq_field c st
  | seq s =>
    unfold flushOne
    cases h : s.functionDefinition <;> simp [h, apply_seq_field]
  | image w h rgba => rfl

theorem foldFlush_seq_field :
    ∀ (bs : List Batchable) (st : SequencerState),
      (List.foldl flushOne st bs).sequence = st.sequence
  | [], _ => rfl
  | b :: bs, st => by
    rw [List.foldl_cons, foldFlush_seq_field bs (flushOne st b),
      flushOne_seq_field]

theorem flush_seq_field (st : SequencerState) :
    (Sequencer.flushBatchedSequences st).sequence = st.sequence := by
  unfold Sequencer.flushBatchedSequences
  exact foldFlush_seq_field st.batchedSequences st

theorem handleSequence_seq_field (st : SequencerState) :
    (Sequencer.handleSequence st).sequence = st.sequence := by
  cases h : st.sequence.functionDefinition with
  | none => simp [Sequencer.handleSequence, h]
  | some f =>
    simp only [Sequencer.handleSequence, h]
    split
    · simp [apply_seq_field]
    · split
      · simp [apply_seq_field, flush_seq_field]
      · split
        · rfl
        · simp [apply_seq_field]

/-- C3: the spec requires digit accumulation to saturate at the top of
the 32-bit range, but `Sequencer::param` computes
`value * 10 + digit` with plain unsigned arithmetic: feeding the digits
of `2 ^ 32` wraps the stored parameter around to 0 instead of pinning it
at `2 ^ 32 - 1`, while the largest representable value still accumulates
exactly. -/
theorem c3_param_accumulation_wraps :
    (Sequencer.paramRun (strBytes "4294967296") Sequence.cleared).parameters
      = [[0]] ∧
    (Sequencer.paramRun (strBytes "4294967295") Sequence.cleared).parameters
      = [[4294967295]] := by
  constructor <;> decide

/-- C5 counterexample: handling a completed `CSI 1 m` sequence leaves
the current Sequence holding its parameters and final byte; it is not
cleared to its initial state when `handleSequence` completes. -/
theorem c5_counterexample :
    (Sequencer.handleSequence
        { SequencerState.initial with sequence := sgrBoldSeq }).sequence
      ≠ Sequence.cleared := by
  decide

/-- C5 amended: `handleSequence` itself leaves the current Sequence
unchanged — the reset to the initial state happens elsewhere
(`dispatchOSC` clears right after dispatching, and the producer calls
`clear` before assembling the next sequence); a cleared Sequence does
have empty parameters, intermediates and data string, no leader and
final char 0. -/
theorem c5_sequence_not_cleared_by_handleSequence :
    ∀ st : SequencerState,
      (Sequencer.handleSequence st).sequence = st.sequence ∧
      (Sequencer.dispatchOSC st).sequence = Sequence.cleared ∧
      Sequence.cleared.parameters = [] ∧
      Sequence.cleared.intermediateCharacters = [] ∧
      Sequence.cleared.dataString = [] ∧
      Sequence.cleared.leaderSymbol = 0 ∧
      Sequence.cleared.finalChar = 0 := by
  intro st
  refine ⟨handleSequence_seq_field st, rfl, rfl, rfl, rfl, rfl, rfl⟩

theorem ensureParams_wf {ps : List (List Nat)} (h : paramsWellFormed ps) :
    paramsWellFormed (ensureParams ps) := by
  by_cases he : ps.isEmpty
  · refine ⟨?_, ?_⟩ <;> simp [ensureParams, he, Sequence.MaxParameters]
  · simpa [ensureParams, he] using h

theorem paramSwitch_wf (c : Nat) {ps : List (List Nat)}
    (h : paramsWellFormed ps) : paramsWellFormed (paramSwitch c ps) := by
  obtain ⟨hlen, hmem⟩ := h
  unfold paramSwitch
  split_ifs with h59 hcap h58 hdig
  · refine ⟨?_, ?_⟩
    · simp only [List.length_append, List.length_singleton]
      exact Nat.succ_le_of_lt hcap
    intro g hg
    rcases List.mem_append.mp hg with hg | hg
    · exact hmem g hg
    · simp only [List.mem_singleton] at hg
      subst hg
      exact ⟨by simp, by decide⟩
  · exact ⟨hlen, hmem⟩
  · refine ⟨by simpa [updateLast_length] using hlen, ?_⟩
    refine updateLast_pres ?_ _ hmem
    intro g hg
    split_ifs with hc
    · refine ⟨by simp, ?_⟩
      simp only [List.length_append, List.length_singleton]
      omega
    · exact hg
  · refine ⟨by simpa [updateLast_length] using hlen, ?_⟩
    refine updateLast_pres ?_ _ hmem
    intro g hg
    refine ⟨?_, by simpa [updateLast_length] using hg.2⟩
    intro hnil
    have hz := updateLast_length (fun v => (v * 10 + (c - 48)) % UMAX) g
    rw [hnil] at hz
    simp only [List.length_nil] at hz
    exact hg.1 (List.eq_nil_of_length_eq_zero hz.symm)
  · exact ⟨hlen, hmem⟩

theorem param_preserves_wf (c : Nat) (s : Sequence)
    (h : paramsWellFormed s.parameters) :
    paramsWellFormed (Sequencer.param c s).parameters :=
  paramSwitch_wf c (ensureParams_wf h)

theorem paramRun_preserves_wf :
    ∀ (cs : List Nat) (s : Sequence), paramsWellFormed s.parameters →
      paramsWellFormed (Sequencer.paramRun cs s).parameters
  | [], _, h => h
  | c :: cs, s, h => by
    have hstep : Sequencer.paramRun (c :: cs) s
        = Sequencer.paramRun cs (Sequencer.param c s) := rfl
    rw [hstep]
    exact paramRun_preserves_wf cs _ (param_preserves_wf c s h)

theorem param_semicolon_at_cap (s : Sequence)
    (h : s.parameters.length = Sequence.MaxParameters) :
    Sequencer.param 59 s = s := by
  have hne : s.parameters.isEmpty = false := by
    cases hp : s.parameters with
    | nil => rw [hp] at h; simp [Sequence.MaxParameters] at h
    | cons a l => simp [hp]
  unfold Sequencer.param paramSwitch ensureParams
  rw [hne]
  simp only [Bool.false_eq_true, if_false, if_pos rfl, h, lt_self_iff_false,
    if_neg (lt_irrefl _)]
  cases s
  rfl

/-- C10: `Sequencer::param` keeps at most 16 parameter groups of at most
16 values each (starting from the cleared sequence the invariant always
holds and each step preserves it); once the group cap is reached a
further `;` is dropped, so a digit that follows is folded into the last
value of the last existing group rather than being discarded. -/
theorem c10_parameter_bounds_and_merge :
    (∀ (cs : List Nat) (s : Sequence), paramsWellFormed s.parameters →
        paramsWellFormed (Sequencer.paramRun cs s).parameters) ∧
    (∀ cs : List Nat,
        paramsWellFormed (Sequencer.paramRun cs Sequence.cleared).parameters) ∧
    (∀ s : Sequence, s.parameters.length = Sequence.MaxParameters →
        Sequencer.param 59 s = s) ∧
    (∀ (s : Sequence) (d : Nat), s.parameters.length = Sequence.MaxParameters →
        48 ≤ d → d ≤ 57 →
        (Sequencer.param d (Sequencer.param 59 s)).parameters =
          updateLast (updateLast (fun v => (v * 10 + (d - 48)) % UMAX))
            s.parameters) := by
  refine ⟨paramRun_preserves_wf, ?_, param_semicolon_at_cap, ?_⟩
  · intro cs
    exact paramRun_preserves_wf cs Sequence.cleared ⟨by decide, by simp [Sequence.cleared]⟩
  · intro s d h h48 h57
    rw [param_semicolon_at_cap s h]
    have hne : s.parameters.isEmpty = false := by
      cases hp : s.parameters with
      | nil => rw [hp] at h; simp [Sequence.MaxParameters] at h
      | cons a l => simp [hp]
    unfold Sequencer.param paramSwitch ensureParams
    rw [hne]
    simp only [Bool.false_eq_true, if_false]
    rw [if_neg (by omega), if_neg (by omega), if_pos ⟨h48, h57⟩]

set_option maxRecDepth 4000 in
/-- C10 witness: the invariant, cap and merge facts at concrete inputs —
a 17-group attempt stays at 16 groups and the digits after the dropped
`;` merge into the sixteenth value. -/
theorem c10_parameter_bounds_and_merge_witness :
    paramsWellFormed
      (Sequencer.paramRun (strBytes "1;2;3;4;5;6;7;8;9;10;11;12;13;14;15;16;17")
        Sequence.cleared).parameters ∧
    (Sequencer.paramRun (strBytes "1;2;3;4;5;6;7;8;9;10;11;12;13;14;15;16;17")
        Sequence.cleared).parameters =
      [[1], [2], [3], [4], [5], [6], [7], [8], [9], [10], [11], [12], [13],
        [14], [15], [1617]] := by
  constructor
  · exact c10_parameter_bounds_and_merge.2.1 _
  · decide

theorem flushOne_off (st : SequencerState) (b : Batchable)
    (h : st.batching = false) :
    flushOne st b =
      { st with trace := st.trace ++ batchEffects [b],
                instructionCounter :=
                  match b with
                  | Batchable.ch _ => st.instructionCounter + 1
                  | _ => st.instructionCounter } := by
  cases b with
  | ch c => simp [flushOne, Sequencer.print, h, batchEffects]
  | seq s =>
    cases hf : s.functionDefinition with
    | none => simp [flushOne, hf, batchEffects]
    | some f => simp [flushOne, hf, batchEffects, Sequencer.apply, h]
  | image w hh rgba => simp [flushOne, batchEffects]

theorem foldFlush_off :
    ∀ (bs : List Batchable) (st : SequencerState), st.batching = false →
      (List.foldl flushOne st bs).trace = st.trace ++ batchEffects bs ∧
      (List.foldl flushOne st bs).batching = false ∧
      (List.foldl flushOne st bs).batchedSequences = st.batchedSequences
  | [], st, h => by simp [batchEffects, h]
  | b :: bs, st, h => by
    rw [List.foldl_cons, flushOne_off st b h]
    have ih := foldFlush_off bs
      { st with trace := st.trace ++ batchEffects [b],
                instructionCounter :=
                  match b with
                  | Batchable.ch _ => st.instructionCounter + 1
                  | _ => st.instructionCounter } h
    refine ⟨?_, ih.2.1, ih.2.2⟩
    rw [ih.1]
    simp [batchEffects, List.append_assoc]

theorem flush_off (st : SequencerState) (h : st.batching = false) :
    (Sequencer.flushBatchedSequences st).trace
        = st.trace ++ batchEffects st.batchedSequences ∧
      (Sequencer.flushBatchedSequences st).batching = false ∧
      (Sequencer.flushBatchedSequences st).batchedSequences = [] ∧
      (Sequencer.flushBatchedSequences st).sequence = st.sequence := by
  unfold Sequencer.flushBatchedSequences
  have hc := foldFlush_off st.batchedSequences st h
  exact ⟨hc.1, hc.2.1, rfl, foldFlush_seq_field _ _⟩

theorem hs_decsm2026 (st : SequencerState)
    (h1 : st.sequence.functionDefinition = some FunctionDef.DECSM)
    (h2 : st.sequence.containsParameter 2026 = true) :
    Sequencer.handleSequence st =
      { st with batching := true
                batchedSequences :=
                  st.batchedSequences ++ [Batchable.seq st.sequence]
                instructionCounter := st.instructionCounter + 1
                trace := st.trace ++ [ScreenOp.verifyState] } := by
  simp only [Sequencer.handleSequence, h1]
  simp [h2, Sequencer.apply, isBatchable]

theorem apply_off (f : FunctionDef) (s : Sequence) (st : SequencerState)
    (h : st.batching = false) :
    Sequencer.apply f s st =
      { st with trace := st.trace ++ (applyEffects f s).2 } := by
  simp [Sequencer.apply, h]

theorem hs_decrm2026 (st : SequencerState)
    (h1 : st.sequence.functionDefinition = some FunctionDef.DECRM)
    (h2 : st.sequence.containsParameter 2026 = true) :
    (Sequencer.handleSequence st).batching = false ∧
      (Sequencer.handleSequence st).batchedSequences = [] ∧
      (Sequencer.handleSequence st).trace =
        st.trace ++ batchEffects st.batchedSequences ++
          (applyEffects FunctionDef.DECRM st.sequence).2 ++
          [ScreenOp.verifyState] := by
  have hfl := flush_off
    { st with batching := false, instructionCounter := st.instructionCounter + 1 }
    rfl
  have hmain : Sequencer.handleSequence st =
      { Sequencer.apply FunctionDef.DECRM st.sequence
          (Sequencer.flushBatchedSequences
            { st with batching := false,
                      instructionCounter := st.instructionCounter + 1 }) with
        trace :=
          (Sequencer.apply FunctionDef.DECRM st.sequence
            (Sequencer.flushBatchedSequences
              { st with batching := false,
                        instructionCounter := st.instructionCounter + 1 })).trace
          ++ [ScreenOp.verifyState] } := by
    simp only [Sequencer.handleSequence, h1]
    simp [h2]
  rw [hmain,
    apply_off FunctionDef.DECRM st.sequence _ hfl.2.1]
  refine ⟨hfl.2.1, hfl.2.2.1, ?_⟩
  simp [hfl.1, List.append_assoc]

theorem hs_batchable_on (st : SequencerState) (f : FunctionDef)
    (h1 : st.sequence.functionDefinition = some f)
    (hbf : isBatchable f = true)
    (hb : st.batching = true)
    (hns : f = FunctionDef.DECSM → st.sequence.containsParameter 2026 = false)
    (hnr : f = FunctionDef.DECRM → st.sequence.containsParameter 2026 = false) :
    Sequencer.handleSequence st =
      { st with batchedSequences :=
                  st.batchedSequences ++ [Batchable.seq st.sequence]
                instructionCounter := st.instructionCounter + 1
                trace := st.trace ++ [ScreenOp.verifyState] } := by
  simp only [Sequencer.handleSequence, h1]
  by_cases hfs : f = FunctionDef.DECSM
  · subst hfs
    simp [hns rfl, hb, hbf]
  · by_cases hfr : f = FunctionDef.DECRM
    · subst hfr
      simp [hnr rfl, hb, hbf]
    · simp [hfs, hfr, hb, hbf]

theorem hs_plain_off (st : SequencerState) (f : FunctionDef)
    (h1 : st.sequence.functionDefinition = some f)
    (hb : st.batching = false)
    (hns : f = FunctionDef.DECSM → st.sequence.containsParameter 2026 = false)
    (hnr : f = FunctionDef.DECRM → st.sequence.containsParameter 2026 = false) :
    Sequencer.handleSequence st =
      { st with instructionCounter := st.instructionCounter + 1
                trace := st.trace ++ (applyEffects f st.sequence).2 ++
                  [ScreenOp.verifyState] } := by
  simp only [Sequencer.handleSequence, h1]
  by_cases hfs : f = FunctionDef.DECSM
  · subst hfs
    simp [hns rfl, hb, Sequencer.apply, List.append_assoc]
  · by_cases hfr : f = FunctionDef.DECRM
    · subst hfr
      simp [hnr rfl, hb, Sequencer.apply, List.append_assoc]
    · simp [hfs, hfr, hb, Sequencer.apply, List.append_assoc]

theorem hs_unknown (st : SequencerState)
    (h : st.sequence.functionDefinition = none) :
    Sequencer.handleSequence st =
      { st with instructionCounter := st.instructionCounter + 1 } := by
  simp only [Sequencer.handleSequence, h]

/-- C1 counterexample: handling `CSI ? 2026 h` emits nothing but the
`verifyState` hook on the screen — the mode transition is not applied
but enqueued onto the batch queue, because `apply` re-checks the
just-enabled batching flag and DECSM is batchable. -/
theorem c1_counterexample :
    (Sequencer.handleSequence
        { SequencerState.initial with sequence := decsm2026Seq }).trace
      = [ScreenOp.verifyState] ∧
    (Sequencer.handleSequence
        { SequencerState.initial with sequence := decsm2026Seq }).batchedSequences
      = [Batchable.seq decsm2026Seq] := by
  constructor <;> decide

/-- C1 amended: on set-mode with parameter 2026 `handleSequence` enables
batching and then the `apply` call — finding batching active and DECSM
batchable — enqueues the very sequence instead of applying it, so the
screen sees the mode transition only when the queue is flushed; on
reset-mode with 2026 it disables batching, replays the queue in
insertion order and then applies the function. -/
theorem c1_sync_mode_set_enqueued_reset_flushes (s : Sequence)
    (st : SequencerState) :
    (s.functionDefinition = some FunctionDef.DECSM →
      s.containsParameter 2026 = true →
      Sequencer.handleSequence { st with sequence := s } =
        { st with
            sequence := s
            batching := true
            batchedSequences := st.batchedSequences ++ [Batchable.seq s]
            instructionCounter := st.instructionCounter + 1
            trace := st.trace ++ [ScreenOp.verifyState] }) ∧
    (s.functionDefinition = some FunctionDef.DECRM →
      s.containsParameter 2026 = true →
      (Sequencer.handleSequence { st with sequence := s }).batching = false ∧
      (Sequencer.handleSequence { st with sequence := s }).batchedSequences
        = [] ∧
      (Sequencer.handleSequence { st with sequence := s }).trace =
        st.trace ++ batchEffects st.batchedSequences ++
          (applyEffects FunctionDef.DECRM s).2 ++ [ScreenOp.verifyState]) := by
  constructor
  · intro h1 h2
    exact hs_decsm2026 { st with sequence := s } h1 h2
  · intro h1 h2
    exact hs_decrm2026 { st with sequence := s } h1 h2

/-- C1 witness: the amended statement at `CSI ? 2026 h` on the initial
state, and at `CSI ? 2026 l` on a batching state whose queue holds one
bold SGR sequence: the flush replays the queued bold first, then the
reset reaches the screen. -/
theorem c1_sync_mode_witness :
    Sequencer.handleSequence
        { SequencerState.initial with sequence := decsm2026Seq } =
      { SequencerState.initial with
          sequence := decsm2026Seq
          batching := true
          batchedSequences := [Batchable.seq decsm2026Seq]
          instructionCounter := 1
          trace := [ScreenOp.verifyState] } ∧
    ((Sequencer.handleSequence
        { SequencerState.initial with
            batching := true
            batchedSequences := [Batchable.seq sgrBoldSeq]
            sequence := decrm2026Seq }).batching = false ∧
      (Sequencer.handleSequence
        { SequencerState.initial with
            batching := true
            batchedSequences := [Batchable.seq sgrBoldSeq]
            sequence := decrm2026Seq }).batchedSequences = [] ∧
      (Sequencer.handleSequence
        { SequencerState.initial with
            batching := true
            batchedSequences := [Batchable.seq sgrBoldSeq]
            sequence := decrm2026Seq }).trace =
        [ScreenOp.setGraphicsRendition GraphicsRendition.Bold,
          ScreenOp.setMode Mode.BatchedRendering false,
          ScreenOp.verifyState]) := by
  refine ⟨(c1_sync_mode_set_enqueued_reset_flushes decsm2026Seq
      SequencerState.initial).1 rfl rfl, ?_⟩
  have h := (c1_sync_mode_set_enqueued_reset_flushes decrm2026Seq
    { SequencerState.initial with
        batching := true
        batchedSequences := [Batchable.seq sgrBoldSeq] }).2 rfl rfl
  refine ⟨h.1, h.2.1, ?_⟩
  rw [h.2.2]
  decide

/-- C7 counterexample: with batching active, `execute(0x37)` (the DECSC
save-cursor control) enqueues nothing and performs nothing — the
synthetic C0 sequence with final 0x37 resolves to no function, so the
operation is lost instead of being queued as the claim states. -/
theorem c7_counterexample :
    (Sequencer.execute 55
        { SequencerState.initial with batching := true }).batchedSequences
      = [] ∧
    (Sequencer.execute 55
        { SequencerState.initial with batching := true }).trace = [] := by
  constructor <;> decide

/-- C7 amended: while batching, the seven dispatchable C0 bytes (BEL,
BS, TAB, LF, VT, FF, CR) are enqueued as synthetic C0 sequences whose
replay performs exactly the corresponding screen operation; the bytes
0x37 and 0x38 resolve to no C0 function, so their synthetic sequences
are dropped (only logged) and the save/restore operation is lost while
batching. -/
theorem c7_c0_enqueued_except_save_restore :
    (∀ (c0 : Nat) (st : SequencerState),
        c0 ∈ [7, 8, 9, 10, 11, 12, 13] → st.batching = true →
        Sequencer.execute c0 st =
          { st with
              sequence := synthC0 c0
              batchedSequences :=
                st.batchedSequences ++ [Batchable.seq (synthC0 c0)]
              instructionCounter := st.instructionCounter + 1
              trace := st.trace ++ [ScreenOp.verifyState] } ∧
        batchEffects [Batchable.seq (synthC0 c0)] = [c0Op c0]) ∧
    (∀ (c0 : Nat) (st : SequencerState),
        c0 ∈ [55, 56] → st.batching = true →
        Sequencer.execute c0 st =
          { st with
              sequence := synthC0 c0
              instructionCounter := st.instructionCounter + 1 }) := by
  constructor
  · intro c0 st hmem hb
    have hexec : Sequencer.execute c0 st =
        Sequencer.handleSequence { st with sequence := synthC0 c0 } := by
      simp [Sequencer.execute, Sequencer.executeControlFunction, hb, synthC0]
    simp only [List.mem_cons, List.mem_singleton, List.not_mem_nil,
      or_false] at hmem
    rcases hmem with rfl | rfl | rfl | rfl | rfl | rfl | rfl <;>
      · refine ⟨?_, by decide⟩
        rw [hexec]
        exact hs_batchable_on _ _ rfl rfl hb (fun _ => rfl) (fun _ => rfl)
  · intro c0 st hmem hb
    have hexec : Sequencer.execute c0 st =
        Sequencer.handleSequence { st with sequence := synthC0 c0 } := by
      simp [Sequencer.execute, Sequencer.executeControlFunction, hb, synthC0]
    simp only [List.mem_cons, List.mem_singleton, List.not_mem_nil,
      or_false] at hmem
    rcases hmem with rfl | rfl <;>
      · rw [hexec]
        exact hs_unknown _ rfl

/-- C7 witness: the amended statement at BEL (0x07) and at DECSC (0x37)
on a concrete batching state. -/
theorem c7_c0_enqueued_witness :
    (Sequencer.execute 7 { SequencerState.initial with batching := true } =
      { SequencerState.initial with
          batching := true
          sequence := synthC0 7
          batchedSequences := [Batchable.seq (synthC0 7)]
          instructionCounter := 1
          trace := [ScreenOp.verifyState] } ∧
      batchEffects [Batchable.seq (synthC0 7)] = [c0Op 7]) ∧
    Sequencer.execute 55 { SequencerState.initial with batching := true } =
      { SequencerState.initial with
          batching := true
          sequence := synthC0 55
          instructionCounter := 1 } := by
  exact ⟨c7_c0_enqueued_except_save_restore.1 7
      { SequencerState.initial with batching := true } (by decide) rfl,
    c7_c0_enqueued_except_save_restore.2 55
      { SequencerState.initial with batching := true } (by decide) rfl⟩

/-- C2 counterexample: with three bold SGR sequences as the batchable
A, B, C, the two streams do not produce the same screen-call sequence —
the BatchedRendering mode transitions land in different places (deferred
by the queue on the left, applied during the flush on the right) and the
`verifyState` hooks interleave differently. -/
theorem c2_counterexample :
    (Sequencer.runSequences
        [decsm2026Seq, sgrBoldSeq, sgrBoldSeq, sgrBoldSeq, decrm2026Seq]
        SequencerState.initial).trace ≠
      (Sequencer.runSequences
        [decsm2026Seq, decrm2026Seq, sgrBoldSeq, sgrBoldSeq, sgrBoldSeq]
        SequencerState.initial).trace := by
  decide

/-- C2 amended: for batchable A, B, C (resolving to batchable functions
and not themselves carrying the synchronized-output parameter 2026), the
two streams agree after discarding the synchronized-output bookkeeping —
the BatchedRendering mode set/reset calls and the `verifyState` hooks;
the remaining screen side effects of A, B, C appear in the same order in
both. -/
theorem c2_batching_effect_equivalence (A B C : Sequence)
    (hA : plainBatchable A) (hB : plainBatchable B) (hC : plainBatchable C) :
    visibleTrace (Sequencer.runSequences
        [decsm2026Seq, A, B, C, decrm2026Seq] SequencerState.initial).trace =
      visibleTrace (Sequencer.runSequences
        [decsm2026Seq, decrm2026Seq, A, B, C] SequencerState.initial).trace := by
  obtain ⟨fa, hfa, hba, ha26⟩ := hA
  obtain ⟨fb, hfb, hbb, hb26⟩ := hB
  obtain ⟨fc, hfc, hbc, hc26⟩ := hC
  have h1 : Sequencer.handleSequence
      { SequencerState.initial with sequence := decsm2026Seq } =
      { sequence := decsm2026Seq
        batching := true
        batchedSequences := [Batchable.seq decsm2026Seq]
        instructionCounter := 1
        trace := [ScreenOp.verifyState] } := by
    decide
  -- left stream: A, B, C are queued
  have h2 : Sequencer.handleSequence
      { sequence := A
        batching := true
        batchedSequences := [Batchable.seq decsm2026Seq]
        instructionCounter := 1
        trace := [ScreenOp.verifyState] } =
      { sequence := A
        batching := true
        batchedSequences := [Batchable.seq decsm2026Seq, Batchable.seq A]
        instructionCounter := 2
        trace := [ScreenOp.verifyState, ScreenOp.verifyState] } :=
    hs_batchable_on _ fa hfa hba rfl
      (fun h => ha26 (Or.inl h)) (fun h => ha26 (Or.inr h))
  have h3 : Sequencer.handleSequence
      { sequence := B
        batching := true
        batchedSequences := [Batchable.seq decsm2026Seq, Batchable.seq A]
        instructionCounter := 2
        trace := [ScreenOp.verifyState, ScreenOp.verifyState] } =
      { sequence := B
        batching := true
        batchedSequences :=
          [Batchable.seq decsm2026Seq, Batchable.seq A, Batchable.seq B]
        instructionCounter := 3
        trace := [ScreenOp.verifyState, ScreenOp.verifyState,
          ScreenOp.verifyState] } :=
    hs_batchable_on _ fb hfb hbb rfl
      (fun h => hb26 (Or.inl h)) (fun h => hb26 (Or.inr h))
  have h4 : Sequencer.handleSequence
      { sequence := C
        batching := true
        batchedSequences :=
          [Batchable.seq decsm2026Seq, Batchable.seq A, Batchable.seq B]
        instructionCounter := 3
        trace := [ScreenOp.verifyState, ScreenOp.verifyState,
          ScreenOp.verifyState] } =
      { sequence := C
        batching := true
        batchedSequences :=
          [Batchable.seq decsm2026Seq, Batchable.seq A, Batchable.seq B,
            Batchable.seq C]
        instructionCounter := 4
        trace := [ScreenOp.verifyState, ScreenOp.verifyState,
          ScreenOp.verifyState, ScreenOp.verifyState] } :=
    hs_batchable_on _ fc hfc hbc rfl
      (fun h => hc26 (Or.inl h)) (fun h => hc26 (Or.inr h))
  have hL := hs_decrm2026
    { sequence := decrm2026Seq
      batching := true
      batchedSequences :=
        [Batchable.seq decsm2026Seq, Batchable.seq A, Batchable.seq B,
          Batchable.seq C]
      instructionCounter := 4
      trace := [ScreenOp.verifyState, ScreenOp.verifyState,
        ScreenOp.verifyState, ScreenOp.verifyState] } rfl rfl
  have eBatch : batchEffects
      [Batchable.seq decsm2026Seq, Batchable.seq A, Batchable.seq B,
        Batchable.seq C] =
      [ScreenOp.setMode Mode.BatchedRendering true] ++
        ((applyEffects fa A).2 ++ ((applyEffects fb B).2 ++
          ((applyEffects fc C).2 ++ []))) := by
    simp only [batchEffects, List.flatMap_cons, List.flatMap_nil, hfa, hfb,
      hfc, List.append_nil]
    rfl
  -- right stream: the reset flushes only the queued set-mode, then
  -- A, B, C apply immediately
  have hR2 := hs_decrm2026
    { sequence := decrm2026Seq
      batching := true
      batchedSequences := [Batchable.seq decsm2026Seq]
      instructionCounter := 1
      trace := [ScreenOp.verifyState] } rfl rfl
  have hbRA : (Sequencer.handleSequence
      { sequence := decrm2026Seq
        batching := true
        batchedSequences := [Batchable.seq decsm2026Seq]
        instructionCounter := 1
        trace := [ScreenOp.verifyState] }).batching = false := hR2.1
  have hRA := hs_plain_off
    { Sequencer.handleSequence
        { sequence := decrm2026Seq
          batching := true
          batchedSequences := [Batchable.seq decsm2026Seq]
          instructionCounter := 1
          trace := [ScreenOp.verifyState] } with sequence := A } fa hfa hbRA
    (fun h => ha26 (Or.inl h)) (fun h => ha26 (Or.inr h))
  have hbRB : (Sequencer.handleSequence
      { Sequencer.handleSequence
          { sequence := decrm2026Seq
            batching := true
            batchedSequences := [Batchable.seq decsm2026Seq]
            instructionCounter := 1
            trace := [ScreenOp.verifyState] } with sequence := A }).batching
      = false := by
    rw [hRA]
    exact hbRA
  have hRB := hs_plain_off
    { Sequencer.handleSequence
        { Sequencer.handleSequence
            { sequence := decrm2026Seq
              batching := true
              batchedSequences := [Batchable.seq decsm2026Seq]
              instructionCounter := 1
              trace := [ScreenOp.verifyState] } with sequence := A } with
      sequence := B } fb hfb hbRB
    (fun h => hb26 (Or.inl h)) (fun h => hb26 (Or.inr h))
  have hbRC : (Sequencer.handleSequence
      { Sequencer.handleSequence
          { Sequencer.handleSequence
              { sequence := decrm2026Seq
                batching := true
                batchedSequences := [Batchable.seq decsm2026Seq]
                instructionCounter := 1
                trace := [ScreenOp.verifyState] } with sequence := A } with
        sequence := B }).batching = false := by
    rw [hRB]
    exact hbRB
  have hRC := hs_plain_off
    { Sequencer.handleSequence
        { Sequencer.handleSequence
            { Sequencer.handleSequence
                { sequence := decrm2026Seq
                  batching := true
                  batchedSequences := [Batchable.seq decsm2026Seq]
                  instructionCounter := 1
                  trace := [ScreenOp.verifyState] } with sequence := A } with
          sequence := B } with sequence := C } fc hfc hbRC
    (fun h => hc26 (Or.inl h)) (fun h => hc26 (Or.inr h))
  simp only [Sequencer.runSequences, List.foldl]
  rw [h1, h2, h3, h4, hRC, hRB, hRA]
  rw [hL.2.2, hR2.2.2]
  simp only [eBatch]
  have eR : batchEffects [Batchable.seq decsm2026Seq] =
      [ScreenOp.setMode Mode.BatchedRendering true] := by decide
  have eRM : (applyEffects FunctionDef.DECRM decrm2026Seq).2 =
      [ScreenOp.setMode Mode.BatchedRendering false] := by decide
  simp only [eR, eRM]
  simp [visibleTrace, List.filter_append, isSyncEvent]

/-- C2 witness: the amended equivalence at A = B = C = `CSI 1 m`, whose
hypotheses hold since SGR is batchable and carries no 2026 parameter. -/
theorem c2_batching_effect_equivalence_witness :
    plainBatchable sgrBoldSeq ∧
    visibleTrace (Sequencer.runSequences
        [decsm2026Seq, sgrBoldSeq, sgrBoldSeq, sgrBoldSeq, decrm2026Seq]
        SequencerState.initial).trace =
      visibleTrace (Sequencer.runSequences
        [decsm2026Seq, decrm2026Seq, sgrBoldSeq, sgrBoldSeq, sgrBoldSeq]
        SequencerState.initial).trace :=
  ⟨⟨FunctionDef.SGR, rfl, rfl, fun _ => rfl⟩,
    c2_batching_effect_equivalence sgrBoldSeq sgrBoldSeq sgrBoldSeq
      ⟨FunctionDef.SGR, rfl, rfl, fun _ => rfl⟩
      ⟨FunctionDef.SGR, rfl, rfl, fun _ => rfl⟩
      ⟨FunctionDef.SGR, rfl, rfl, fun _ => rfl⟩⟩

/-- C4 counterexample: `SGR 38;2;300;0;0` does not make `dispatchSGR`
return Invalid and does not leave the screen untouched — the result is
Ok and the screen receives a `setForegroundColor` call (carrying the
discarded color's default placeholder). -/
theorem c4_counterexample :
    (impl.dispatchSGR (mkSGRseq [[38], [2], [300], [0], [0]])).1
        ≠ ApplyResult.Invalid ∧
      (impl.dispatchSGR (mkSGRseq [[38], [2], [300], [0], [0]])).2 ≠ [] := by
  constructor <;> decide

/-- C4 amended: an out-of-range RGB channel makes `parseColor` discard
the color, but `dispatchSGR` still forwards the resulting default
(undefined) color to the screen's foreground/background/underline color
setter and returns Ok, not Invalid; and the legacy palette form
`38;5;n` does not reject indices above 255 at all — the range check
compares the parameter index instead of the value, so the index reaches
the screen truncated to its low byte by the 8-bit enumeration cast. -/
theorem c4_sgr_out_of_range_color (r g b n : Nat) :
    (255 < r →
      impl.dispatchSGR (mkSGRseq [[38], [2], [r], [g], [b]]) =
        (ApplyResult.Ok, [ScreenOp.setForegroundColor Color.undefined]) ∧
      impl.dispatchSGR (mkSGRseq [[38, 2, r, g, b]]) =
        (ApplyResult.Ok, [ScreenOp.setForegroundColor Color.undefined]) ∧
      impl.dispatchSGR (mkSGRseq [[48], [2], [r], [g], [b]]) =
        (ApplyResult.Ok, [ScreenOp.setBackgroundColor Color.undefined]) ∧
      impl.dispatchSGR (mkSGRseq [[58], [2], [r], [g], [b]]) =
        (ApplyResult.Ok, [ScreenOp.setUnderlineColor Color.undefined])) ∧
    (255 < n →
      impl.dispatchSGR (mkSGRseq [[38], [5], [n]]) =
        (ApplyResult.Ok,
          [ScreenOp.setForegroundColor (Color.indexed (n % 256))])) := by
  constructor
  · intro hr
    have hno : ¬(r ≤ 255 ∧ g ≤ 255 ∧ b ≤ 255) := by omega
    refine ⟨?_, ?_, ?_, ?_⟩ <;>
      simp [impl.dispatchSGR, impl.sgrLoop, impl.parseColor,
        impl.parseColorLegacy, mkSGRseq, Sequence.cleared, Sequence.param,
        Sequence.parameterCount, Sequence.subParameterCount,
        Sequence.subparam, hno]
  · intro hn
    simp [impl.dispatchSGR, impl.sgrLoop, impl.parseColor,
      impl.parseColorLegacy, mkSGRseq, Sequence.cleared, Sequence.param,
      Sequence.parameterCount, Sequence.subParameterCount, Sequence.subparam]

/-- C4 witness: the amended statement at channel value 300 and palette
index 300 — the index reaches the screen as palette entry 44. -/
theorem c4_sgr_out_of_range_witness :
    impl.dispatchSGR (mkSGRseq [[38], [2], [300], [0], [0]]) =
      (ApplyResult.Ok, [ScreenOp.setForegroundColor Color.undefined]) ∧
    impl.dispatchSGR (mkSGRseq [[38, 2, 300, 0, 0]]) =
      (ApplyResult.Ok, [ScreenOp.setForegroundColor Color.undefined]) ∧
    impl.dispatchSGR (mkSGRseq [[38], [5], [300]]) =
      (ApplyResult.Ok, [ScreenOp.setForegroundColor (Color.indexed 44)]) := by
  have h := c4_sgr_out_of_range_color 300 0 0 300
  have h1 := h.1 (by decide)
  have h2 := h.2 (by decide)
  exact ⟨h1.1, h1.2.1, h2.trans (by decide)⟩

theorem hexDigit_lt {c v : Nat} (h : hexDigit c = some v) : v < 16 := by
  unfold hexDigit at h
  split_ifs at h <;> (injection h with h; omega)

theorem parseColor_isSome_iff_shape (v : List Nat) :
    (Sequencer.parseColor v).isSome = isRgbSpecLiteral v := by
  unfold Sequencer.parseColor isRgbSpecLiteral
  by_cases h : v.length = 18 ∧ v.take 4 = strBytes "rgb:" ∧
      v.getD 8 0 = 47 ∧ v.getD 13 0 = 47
  · rw [if_pos h, decide_eq_true h]
    rcases ha : hex4 ((v.drop 4).take 4) with _ | ra <;>
      rcases hb : hex4 ((v.drop 9).take 4) with _ | rb <;>
        rcases hc : hex4 ((v.drop 14).take 4) with _ | rc <;>
          simp [ha, hb, hc]
  · rw [if_neg h, decide_eq_false h]
    simp

/-- C8: the dynamic-color OSC contract: a `?` payload emits a query for
the named color; an 18-byte `rgb:RRRR/GGGG/BBBB` payload with
hexadecimal groups sets the named color to the low byte of each 16-bit
group; the well-formedness condition of `Sequencer::parseColor` is
exactly that shape; and any other payload yields Invalid with no screen
call. -/
theorem c8_dynamic_color_contract (name : DynamicColorName) :
    (∀ s : Sequence, s.intermediateCharacters = strBytes "?" →
      impl.setOrRequestDynamicColor s name =
        (ApplyResult.Ok, [ScreenOp.requestDynamicColor name])) ∧
    (∀ d1 d2 d3 d4 d5 d6 d7 d8 d9 d10 d11 d12
        v1 v2 v3 v4 v5 v6 v7 v8 v9 v10 v11 v12 : Nat,
      hexDigit d1 = some v1 → hexDigit d2 = some v2 →
      hexDigit d3 = some v3 → hexDigit d4 = some v4 →
      hexDigit d5 = some v5 → hexDigit d6 = some v6 →
      hexDigit d7 = some v7 → hexDigit d8 = some v8 →
      hexDigit d9 = some v9 → hexDigit d10 = some v10 →
      hexDigit d11 = some v11 → hexDigit d12 = some v12 →
      impl.setOrRequestDynamicColor
        (mkOSCseq 10 [114, 103, 98, 58, d1, d2, d3, d4, 47,
          d5, d6, d7, d8, 47, d9, d10, d11, d12]) name =
        (ApplyResult.Ok,
          [ScreenOp.setDynamicColor name (v3 * 16 + v4) (v7 * 16 + v8)
            (v11 * 16 + v12)])) ∧
    (∀ v : List Nat, (Sequencer.parseColor v).isSome = isRgbSpecLiteral v) ∧
    (∀ v : List Nat, v ≠ strBytes "?" → isRgbSpecLiteral v = false →
      impl.setOrRequestDynamicColor (mkOSCseq 10 v) name =
        (ApplyResult.Invalid, [])) := by
  refine ⟨?_, ?_, parseColor_isSome_iff_shape, ?_⟩
  · intro s h
    simp [impl.setOrRequestDynamicColor, h]
  · intro d1 d2 d3 d4 d5 d6 d7 d8 d9 d10 d11 d12
      v1 v2 v3 v4 v5 v6 v7 v8 v9 v10 v11 v12
      h1 h2 h3 h4 h5 h6 h7 h8 h9 h10 h11 h12
    have hq : ¬ ([114, 103, 98, 58, d1, d2, d3, d4, 47, d5, d6, d7, d8, 47,
        d9, d10, d11, d12] : List Nat) = strBytes "?" := by
      intro h
      simpa [strBytes] using congrArg List.length h
    have e3 := hexDigit_lt h3
    have e4 := hexDigit_lt h4
    have e7 := hexDigit_lt h7
    have e8 := hexDigit_lt h8
    have e11 := hexDigit_lt h11
    have e12 := hexDigit_lt h12
    have hg1 : hex4 [d1, d2, d3, d4]
        = some (v1 * 4096 + v2 * 256 + v3 * 16 + v4) := by
      simp only [hex4]
      rw [h1, h2, h3, h4]
    have hg2 : hex4 [d5, d6, d7, d8]
        = some (v5 * 4096 + v6 * 256 + v7 * 16 + v8) := by
      simp only [hex4]
      rw [h5, h6, h7, h8]
    have hg3 : hex4 [d9, d10, d11, d12]
        = some (v9 * 4096 + v10 * 256 + v11 * 16 + v12) := by
      simp only [hex4]
      rw [h9, h10, h11, h12]
    have hp : Sequencer.parseColor [114, 103, 98, 58, d1, d2, d3, d4, 47,
        d5, d6, d7, d8, 47, d9, d10, d11, d12] =
        some ((v1 * 4096 + v2 * 256 + v3 * 16 + v4) % 256,
          (v5 * 4096 + v6 * 256 + v7 * 16 + v8) % 256,
          (v9 * 4096 + v10 * 256 + v11 * 16 + v12) % 256) := by
      have hcond : ([114, 103, 98, 58, d1, d2, d3, d4, 47, d5, d6, d7, d8,
          47, d9, d10, d11, d12] : List Nat).length = 18 ∧
          ([114, 103, 98, 58, d1, d2, d3, d4, 47, d5, d6, d7, d8, 47, d9,
            d10, d11, d12] : List Nat).take 4 = strBytes "rgb:" ∧
          ([114, 103, 98, 58, d1, d2, d3, d4, 47, d5, d6, d7, d8, 47, d9,
            d10, d11, d12] : List Nat).getD 8 0 = 47 ∧
          ([114, 103, 98, 58, d1, d2, d3, d4, 47, d5, d6, d7, d8, 47, d9,
            d10, d11, d12] : List Nat).getD 13 0 = 47 := by
        have hpre : strBytes "rgb:" = [114, 103, 98, 58] := by decide
        exact ⟨rfl, by rw [hpre]; rfl, rfl, rfl⟩
      unfold Sequencer.parseColor
      rw [if_pos hcond]
      have r1 : (([114, 103, 98, 58, d1, d2, d3, d4, 47, d5, d6, d7, d8, 47,
          d9, d10, d11, d12] : List Nat).drop 4).take 4 = [d1, d2, d3, d4] :=
        rfl
      have r2 : (([114, 103, 98, 58, d1, d2, d3, d4, 47, d5, d6, d7, d8, 47,
          d9, d10, d11, d12] : List Nat).drop 9).take 4 = [d5, d6, d7, d8] :=
        rfl
      have r3 : (([114, 103, 98, 58, d1, d2, d3, d4, 47, d5, d6, d7, d8, 47,
          d9, d10, d11, d12] : List Nat).drop 14).take 4 =
          [d9, d10, d11, d12] := rfl
      rw [r1, r2, r3, hg1, hg2, hg3]
    have m1 : (v1 * 4096 + v2 * 256 + v3 * 16 + v4) % 256 = v3 * 16 + v4 := by
      omega
    have m2 : (v5 * 4096 + v6 * 256 + v7 * 16 + v8) % 256 = v7 * 16 + v8 := by
      omega
    have m3 : (v9 * 4096 + v10 * 256 + v11 * 16 + v12) % 256
        = v11 * 16 + v12 := by
      omega
    simp only [impl.setOrRequestDynamicColor, mkOSCseq, Sequence.cleared]
    rw [if_neg hq, hp]
    simp [m1, m2, m3]
  · intro v hq hshape
    have hnone : Sequencer.parseColor v = none := by
      have := parseColor_isSome_iff_shape v
      rw [hshape] at this
      exact Option.not_isSome_iff_eq_none.mp (by simp [this])
    simp [impl.setOrRequestDynamicColor, mkOSCseq, hq, hnone]

/-- C8 witness: the contract at the query payload, at the literal
`rgb:12AB/00FF/0001` (set to the low bytes 171, 255, 1), and at the
malformed 18-byte payload `rgb:zzzz/0000/0000` which is rejected with no
screen call. -/
theorem c8_dynamic_color_witness :
    impl.setOrRequestDynamicColor
        (mkOSCseq 10 (strBytes "?")) DynamicColorName.DefaultForegroundColor =
      (ApplyResult.Ok,
        [ScreenOp.requestDynamicColor DynamicColorName.DefaultForegroundColor]) ∧
    impl.setOrRequestDynamicColor
        (mkOSCseq 10 [114, 103, 98, 58, 49, 50, 65, 66, 47, 48, 48, 70, 70,
          47, 48, 48, 48, 49])
        DynamicColorName.DefaultForegroundColor =
      (ApplyResult.Ok,
        [ScreenOp.setDynamicColor DynamicColorName.DefaultForegroundColor
          171 255 1]) ∧
    (Sequencer.parseColor (strBytes "rgb:zzzz/0000/0000")).isSome =
      isRgbSpecLiteral (strBytes "rgb:zzzz/0000/0000") ∧
    impl.setOrRequestDynamicColor
        (mkOSCseq 10 (strBytes "rgb:zzzz/0000/0000"))
        DynamicColorName.DefaultForegroundColor =
      (ApplyResult.Invalid, []) := by
  have h := c8_dynamic_color_contract DynamicColorName.DefaultForegroundColor
  refine ⟨h.1 _ rfl, ?_, h.2.2.1 _, h.2.2.2 _ (by decide) (by decide)⟩
  have h2 := h.2.1 49 50 65 66 48 48 70 70 48 48 48 49
    1 2 10 11 0 0 15 15 0 0 0 1
    rfl rfl rfl rfl rfl rfl rfl rfl rfl rfl rfl rfl
  exact h2.trans (by decide)

theorem flushHeader_key (p : MParser) : (p.flushHeader).parsedKey = [] := by
  unfold MParser.flushHeader
  split_ifs with h h2
  · simpa using h
  · rfl
  · rfl

theorem flushHeader_headers_key_nil (p : MParser) (h : p.parsedKey = []) :
    (p.flushHeader).headers = p.headers := by
  unfold MParser.flushHeader
  rw [if_pos h]

theorem flushHeader_value (p : MParser) : (p.flushHeader).parsedValue = [] := by
  unfold MParser.flushHeader
  split_ifs <;> rfl

theorem flushHeader_state (p : MParser) : (p.flushHeader).state = p.state := by
  unfold MParser.flushHeader
  split_ifs <;> rfl

theorem flushHeader_body (p : MParser) : (p.flushHeader).body = p.body := by
  unfold MParser.flushHeader
  split_ifs <;> rfl

theorem flushHeader_congr (p q : MParser) (hk : p.parsedKey = q.parsedKey)
    (hv : p.parsedValue = q.parsedValue) (hh : p.headers = q.headers) :
    (p.flushHeader).headers = (q.flushHeader).headers := by
  unfold MParser.flushHeader
  rw [hk, hv, hh]
  split_ifs <;> simp [hh, hv, hk]

theorem flushHeader_idem (p : MParser) :
    (p.flushHeader).flushHeader = p.flushHeader := by
  have hk := flushHeader_key p
  have hv := flushHeader_value p
  revert hk hv
  generalize p.flushHeader = q
  intro hk hv
  unfold MParser.flushHeader
  rw [if_pos hk]
  cases q
  simp only [] at hv
  simp [hv]

theorem finalize_eq (p : MParser) :
    p.finalize = { headers := (p.flushHeader).headers, body := p.body } := by
  have h : p.finalize =
      { headers := (p.flushHeader).headers, body := (p.flushHeader).body } :=
    rfl
  rw [h, flushHeader_body]

theorem pass_comma_finalize (p : MParser)
    (h : p.state = MPState.ParamKey ∨ p.state = MPState.ParamValue) :
    (p.pass 44).finalize = p.finalize := by
  rcases h with h | h
  · have hp : p.pass 44 = p.flushHeader := by
      unfold MParser.pass
      simp [h]
    rw [hp, finalize_eq, finalize_eq, flushHeader_idem, flushHeader_body]
  · have hp : p.pass 44 = { p.flushHeader with state := MPState.ParamKey } := by
      unfold MParser.pass
      simp [h]
    rw [hp, finalize_eq, finalize_eq]
    have hh : ({ p.flushHeader with
        state := MPState.ParamKey } : MParser).flushHeader.headers =
        ((p.flushHeader).flushHeader).headers :=
      flushHeader_congr _ _ rfl rfl rfl
    rw [hh, flushHeader_idem]
    simp [flushHeader_body]

theorem pass_no_semi (c : Nat) (p : MParser) (hc : c ≠ 59)
    (h : p.state = MPState.ParamKey ∨ p.state = MPState.ParamValue) :
    ((p.pass c).state = MPState.ParamKey ∨
        (p.pass c).state = MPState.ParamValue) ∧
      (p.pass c).body = p.body := by
  rcases h with h | h <;>
    · unfold MParser.pass
      rw [h]
      split_ifs <;>
        simp_all [flushHeader_state, flushHeader_body, h]

theorem run_no_semi :
    ∀ (s : List Nat) (p : MParser), (∀ c ∈ s, c ≠ 59) →
      (p.state = MPState.ParamKey ∨ p.state = MPState.ParamValue) →
      ((s.foldl MParser.pass p).state = MPState.ParamKey ∨
          (s.foldl MParser.pass p).state = MPState.ParamValue) ∧
        (s.foldl MParser.pass p).body = p.body
  | [], p, _, h => ⟨h, rfl⟩
  | c :: s, p, hs, h => by
    rw [List.foldl_cons]
    have hstep := pass_no_semi c p (hs c (List.mem_cons_self c s)) h
    have ih := run_no_semi s (p.pass c)
      (fun d hd => hs d (List.mem_cons_of_mem c hd)) hstep.1
    exact ⟨ih.1, ih.2.trans hstep.2⟩

theorem run_value_chars :
    ∀ (v : List Nat) (p : MParser), (∀ c ∈ v, c ≠ 44 ∧ c ≠ 59) →
      p.state = MPState.ParamValue →
      (v.foldl MParser.pass p).state = MPState.ParamValue ∧
        (v.foldl MParser.pass p).parsedKey = p.parsedKey ∧
        (v.foldl MParser.pass p).headers = p.headers ∧
        (v.foldl MParser.pass p).body = p.body
  | [], p, _, h => ⟨h, rfl, rfl, rfl⟩
  | c :: v, p, hv, h => by
    rw [List.foldl_cons]
    have hc := hv c (List.mem_cons_self c v)
    have hstep : (p.pass c).state = MPState.ParamValue ∧
        (p.pass c).parsedKey = p.parsedKey ∧
        (p.pass c).headers = p.headers ∧
        (p.pass c).body = p.body := by
      unfold MParser.pass
      rw [h]
      split_ifs <;> simp_all
    have ih := run_value_chars v (p.pass c)
      (fun d hd => hv d (List.mem_cons_of_mem c hd)) hstep.1
    exact ⟨ih.1, ih.2.1.trans hstep.2.1, ih.2.2.1.trans hstep.2.2.1,
      ih.2.2.2.trans hstep.2.2.2⟩

theorem pass_pv_comma_initial (q : MParser) (h1 : q.state = MPState.ParamValue)
    (h2 : q.parsedKey = []) (h3 : q.headers = []) (h4 : q.body = []) :
    q.pass 44 = MParser.initial := by
  obtain ⟨st, k, v, hs, b⟩ := q
  simp only [] at h1 h2 h3 h4
  subst h1
  subst h2
  subst h3
  subst h4
  simp [MParser.pass, MParser.flushHeader, MParser.initial]

theorem pass_semi (p : MParser)
    (h : p.state = MPState.ParamKey ∨ p.state = MPState.ParamValue) :
    p.pass 59 = { p.flushHeader with state := MPState.BodyStart } := by
  rcases h with h | h <;>
    · unfold MParser.pass
      simp [h]

theorem run_body :
    ∀ (t : List Nat) (p : MParser), p.state = MPState.Body →
      p.body.length + t.length ≤ MaxBodyLength →
      t.foldl MParser.pass p = { p with body := p.body ++ t }
  | [], p, _, _ => by cases p; simp
  | c :: t, p, h, hlen => by
    have hcap : p.body.length < MaxBodyLength := by
      simp only [List.length_cons] at hlen
      omega
    have hstep : p.pass c = { p with body := p.body ++ [c] } := by
      unfold MParser.pass
      simp [h, hcap]
    have hst : ({ p with body := p.body ++ [c] } : MParser).state
        = MPState.Body := h
    have hlen2 : ({ p with body := p.body ++ [c] } : MParser).body.length
        + t.length ≤ MaxBodyLength := by
      simp only [List.length_append, List.length_singleton]
      simp only [List.length_cons] at hlen
      omega
    rw [List.foldl_cons, hstep, run_body t _ hst hlen2]
    simp

/-- C9: edge behaviors of the message parser: a leading comma produces
no header; with no `;` in the input a trailing comma adds nothing; an
empty key followed by `=value,` is discarded entirely; and the first `;`
ends the header section — everything after it, further `;` bytes
included, becomes the body verbatim while the headers are those of the
prefix. -/
theorem c9_message_parser_edges (s t v : List Nat) :
    (MessageParser.parse (44 :: s) = MessageParser.parse s) ∧
    (59 ∉ s → MessageParser.parse (s ++ [44]) = MessageParser.parse s) ∧
    ((∀ c ∈ v, c ≠ 44 ∧ c ≠ 59) →
      MessageParser.parse (61 :: v ++ 44 :: s) = MessageParser.parse s) ∧
    (59 ∉ s → t.length ≤ MaxBodyLength →
      (MessageParser.parse (s ++ 59 :: t)).body = t ∧
      (MessageParser.parse (s ++ 59 :: t)).headers =
        (MessageParser.parse s).headers) := by
  refine ⟨?_, ?_, ?_, ?_⟩
  · unfold MessageParser.parse
    rw [List.foldl_cons,
      (by decide : MParser.pass MParser.initial 44 = MParser.initial)]
  · intro hs
    have hns : ∀ c ∈ s, c ≠ 59 := fun c hc he => hs (he ▸ hc)
    have hrun := run_no_semi s MParser.initial hns (Or.inl rfl)
    unfold MessageParser.parse
    rw [List.foldl_append]
    simp only [List.foldl_cons, List.foldl_nil]
    exact pass_comma_finalize _ hrun.1
  · intro hv
    have h61 : MParser.pass MParser.initial 61 =
        (⟨MPState.ParamValue, [], [], [], []⟩ : MParser) := by decide
    unfold MessageParser.parse
    simp only [List.foldl_append, List.foldl_cons]
    rw [h61]
    have hrv := run_value_chars v
      (⟨MPState.ParamValue, [], [], [], []⟩ : MParser) hv rfl
    rw [pass_pv_comma_initial _ hrv.1 hrv.2.1 hrv.2.2.1 hrv.2.2.2]
  · intro hs hlen
    have hns : ∀ c ∈ s, c ≠ 59 := fun c hc he => hs (he ▸ hc)
    have hrun := run_no_semi s MParser.initial hns (Or.inl rfl)
    have hb0 : (s.foldl MParser.pass MParser.initial).flushHeader.body
        = [] := by
      rw [flushHeader_body]
      exact hrun.2
    unfold MessageParser.parse
    rw [List.foldl_append]
    simp only [List.foldl_cons]
    rw [pass_semi _ hrun.1]
    cases t with
    | nil =>
      simp only [List.foldl_nil]
      constructor
      · rw [finalize_eq]
        exact hb0
      · rw [finalize_eq, finalize_eq]
        have hq : ({ (s.foldl MParser.pass MParser.initial).flushHeader with
            state := MPState.BodyStart } : MParser).parsedKey = [] :=
          flushHeader_key _
        rw [flushHeader_headers_key_nil _ hq]
    | cons c t =>
      rw [List.foldl_cons]
      have hstart : MParser.pass
          { (s.foldl MParser.pass MParser.initial).flushHeader with
            state := MPState.BodyStart } c =
          { (s.foldl MParser.pass MParser.initial).flushHeader with
            state := MPState.Body
            body := (s.foldl MParser.pass MParser.initial).flushHeader.body
              ++ [c] } := by
        unfold MParser.pass
        simp
      rw [hstart]
      have hlen2 : ({ (s.foldl MParser.pass MParser.initial).flushHeader with
          state := MPState.Body
          body := (s.foldl MParser.pass MParser.initial).flushHeader.body
            ++ [c] } : MParser).body.length + t.length ≤ MaxBodyLength := by
        simp only [hb0, List.length_append, List.length_nil,
          List.length_singleton, List.nil_append]
        simp only [List.length_cons] at hlen
        omega
      rw [run_body t _ rfl hlen2]
      constructor
      · rw [finalize_eq]
        simp [hb0]
      · rw [finalize_eq, finalize_eq]
        have hq : ({ { (s.foldl MParser.pass MParser.initial).flushHeader with
              state := MPState.Body
              body :=
                (s.foldl MParser.pass MParser.initial).flushHeader.body
                  ++ [c] } with
            body :=
              ({ (s.foldl MParser.pass MParser.initial).flushHeader with
                state := MPState.Body
                body :=
                  (s.foldl MParser.pass MParser.initial).flushHeader.body
                    ++ [c] } : MParser).body ++ t } : MParser).parsedKey
            = [] := flushHeader_key _
        rw [flushHeader_headers_key_nil _ hq]

/-- C9 witness: the edge behaviors at concrete inputs — a leading comma
before `a=b`, a trailing comma after it, an empty-key `=q,` prefix, and
a body `x;y` whose second `;` stays in the body. -/
theorem c9_message_parser_edges_witness :
    (MessageParser.parse (44 :: strBytes "a=b") =
      MessageParser.parse (strBytes "a=b")) ∧
    (MessageParser.parse (strBytes "a=b" ++ [44]) =
      MessageParser.parse (strBytes "a=b")) ∧
    (MessageParser.parse (61 :: strBytes "q" ++ 44 :: strBytes "a=b") =
      MessageParser.parse (strBytes "a=b")) ∧
    ((MessageParser.parse (strBytes "a=b" ++ 59 :: strBytes "x;y")).body =
        strBytes "x;y" ∧
      (MessageParser.parse (strBytes "a=b" ++ 59 :: strBytes "x;y")).headers =
        (MessageParser.parse (strBytes "a=b")).headers) := by
  have h := c9_message_parser_edges (strBytes "a=b") (strBytes "x;y")
    (strBytes "q")
  exact ⟨h.1, h.2.1 (by decide), h.2.2.1 (by decide),
    h.2.2.2 (by decide) (by decide)⟩

theorem natDigitsRevF_lt_ten :
    ∀ (fuel n d : Nat), d ∈ natDigitsRevF fuel n → d < 10
  | 0, _, _, h => by simp [natDigitsRevF] at h
  | fuel + 1, n, d, h => by
    unfold natDigitsRevF at h
    split_ifs at h with h0
    · simp at h
    · rcases List.mem_cons.mp h with h | h
      · subst h
        exact Nat.mod_lt n (by omega)
      · exact natDigitsRevF_lt_ten fuel (n / 10) d h

theorem digitsMSB_lt_ten (n d : Nat) (h : d ∈ digitsMSB n) : d < 10 := by
  unfold digitsMSB at h
  split_ifs at h with h0
  · simp at h
    omega
  · exact natDigitsRevF_lt_ten n n d (List.mem_reverse.mp h)

theorem natDecimalBytes_digits (n c : Nat) (h : c ∈ natDecimalBytes n) :
    48 ≤ c ∧ c ≤ 57 := by
  unfold natDecimalBytes at h
  rcases List.mem_map.mp h with ⟨d, hd, hc⟩
  have := digitsMSB_lt_ten n d hd
  omega

theorem natDecimalBytes_ne_nil (n : Nat) : natDecimalBytes n ≠ [] := by
  unfold natDecimalBytes digitsMSB
  split_ifs with h0
  · simp
  · intro hcontra
    rw [List.map_eq_nil_iff, List.reverse_eq_nil_iff] at hcontra
    unfold natDigitsRevF at hcontra
    cases n with
    | zero => exact h0 rfl
    | succ m => simp [h0] at hcontra

theorem valFold_append (a d : Nat) (ds : List Nat) :
    valFold a (ds ++ [d]) = valFold a ds * 10 + d := by
  simp [valFold, List.foldl_append]

theorem modFold_of_lt :
    ∀ (ds : List Nat), valFold 0 ds < UMAX →
      List.foldl (fun x d => (x * 10 + d) % UMAX) 0 ds = valFold 0 ds := by
  intro ds
  induction ds using List.reverseRecOn with
  | nil => intro _; rfl
  | append_singleton ds d ih =>
    intro h
    rw [valFold_append] at h
    have hle : valFold 0 ds ≤ valFold 0 ds * 10 + d := by
      have : valFold 0 ds ≤ valFold 0 ds * 10 :=
        Nat.le_mul_of_pos_right _ (by omega)
      omega
    have hlt : valFold 0 ds < UMAX := Nat.lt_of_le_of_lt hle h
    rw [List.foldl_append, ih hlt]
    simp only [List.foldl_cons, List.foldl_nil, valFold_append]
    exact Nat.mod_eq_of_lt h

theorem valFold_digitsRevF :
    ∀ (fuel n a : Nat), n ≤ fuel →
      valFold a ((natDigitsRevF fuel n).reverse) =
        a * 10 ^ (natDigitsRevF fuel n).length + n
  | 0, n, a, h => by
    have : n = 0 := Nat.le_zero.mp h
    subst this
    simp [natDigitsRevF, valFold]
  | fuel + 1, n, a, h => by
    unfold natDigitsRevF
    split_ifs with h0
    · subst h0
      simp [valFold]
    · have hdiv : n / 10 ≤ fuel := by
        have := Nat.div_lt_self (Nat.pos_of_ne_zero h0) (by omega : 1 < 10)
        omega
      rw [List.reverse_cons, valFold_append,
        valFold_digitsRevF fuel (n / 10) a hdiv, List.length_cons,
        pow_succ, ← Nat.mul_assoc]
      omega

theorem valFold_digitsMSB (n : Nat) : valFold 0 (digitsMSB n) = n := by
  unfold digitsMSB
  split_ifs with h0
  · subst h0
    rfl
  · rw [valFold_digitsRevF n n 0 (le_refl n)]
    simp

theorem byteFold_decimal (n : Nat) (h : n < UMAX) :
    byteFold 0 (natDecimalBytes n) = n := by
  unfold byteFold natDecimalBytes
  rw [List.foldl_map]
  simp only [Nat.add_sub_cancel_left]
  rw [modFold_of_lt]
  · exact valFold_digitsMSB n
  · rw [valFold_digitsMSB]
    exact h

theorem updateLast_congr {α : Type} (f g : α → α) (h : ∀ a, f a = g a) :
    ∀ l : List α, updateLast f l = updateLast g l
  | [] => rfl
  | [a] => by simp [updateLast, h a]
  | a :: b :: rest => by
    simp only [updateLast]
    rw [updateLast_congr f g h (b :: rest)]

theorem updateLast_eq_self {α : Type} (f : α → α) (h : ∀ a, f a = a) :
    ∀ l : List α, updateLast f l = l
  | [] => rfl
  | [a] => by simp [updateLast, h a]
  | a :: b :: rest => by
    simp only [updateLast]
    rw [updateLast_eq_self f h (b :: rest)]

theorem updateLast_comp {α : Type} (f g : α → α) :
    ∀ l : List α, updateLast f (updateLast g l) = updateLast (fun a => f (g a)) l
  | [] => rfl
  | [a] => rfl
  | a :: b :: rest => by
    have hne : updateLast g (b :: rest) ≠ [] := by
      intro hcontra
      have := updateLast_length g (b :: rest)
      rw [hcontra] at this
      simp at this
    have h1 : updateLast g (a :: b :: rest) = a :: updateLast g (b :: rest) :=
      rfl
    rw [h1]
    cases hgl : updateLast g (b :: rest) with
    | nil => exact absurd hgl hne
    | cons x xs =>
      have h2 : updateLast f (a :: x :: xs) = a :: updateLast f (x :: xs) :=
        rfl
      rw [h2, ← hgl,
        show updateLast (fun a => f (g a)) (a :: b :: rest)
          = a :: updateLast (fun a => f (g a)) (b :: rest) from rfl,
        updateLast_comp f g (b :: rest)]

theorem updateLast_append_singleton {α : Type} (f : α → α) :
    ∀ (l : List α) (a : α), updateLast f (l ++ [a]) = l ++ [f a]
  | [], a => rfl
  | b :: l, a => by
    cases hl : l ++ [a] with
    | nil => exact absurd hl (by simp)
    | cons c rest =>
      rw [List.cons_append, hl,
        show updateLast f (b :: c :: rest) = b :: updateLast f (c :: rest)
          from rfl,
        ← hl, updateLast_append_singleton f l a]
      rfl

theorem isEmpty_false_of_ne_nil {α : Type} {l : List α} (h : l ≠ []) :
    l.isEmpty = false := by
  cases hl : l with
  | nil => exact absurd hl h
  | cons a r => rfl

theorem param_digit (c : Nat) (s : Sequence) (h48 : 48 ≤ c) (h57 : c ≤ 57)
    (hne : s.parameters ≠ []) :
    Sequencer.param c s =
      { s with parameters :=
          (updateLast (updateLast (fun v => (v * 10 + (c - 48)) % UMAX))
            s.parameters) } := by
  unfold Sequencer.param paramSwitch ensureParams
  rw [isEmpty_false_of_ne_nil hne]
  simp only [Bool.false_eq_true, if_false]
  rw [if_neg (by omega), if_neg (by omega), if_pos ⟨h48, h57⟩]

theorem param_semi_append (s : Sequence) (hne : s.parameters ≠ [])
    (hlen : s.parameters.length < Sequence.MaxParameters) :
    Sequencer.param 59 s =
      { s with parameters := s.parameters ++ [[0]] } := by
  unfold Sequencer.param paramSwitch ensureParams
  rw [isEmpty_false_of_ne_nil hne]
  simp [hlen]

theorem paramRun_digits :
    ∀ (cs : List Nat) (s : Sequence), (∀ c ∈ cs, 48 ≤ c ∧ c ≤ 57) →
      s.parameters ≠ [] →
      (Sequencer.paramRun cs s).parameters =
        updateLast (updateLast (fun v => byteFold v cs)) s.parameters
  | [], s, _, _ => by
    have h1 : updateLast (updateLast (fun v => byteFold v [])) s.parameters
        = s.parameters := by
      refine updateLast_eq_self _ ?_ s.parameters
      intro g
      exact updateLast_eq_self _ (fun _ => rfl) g
    exact h1.symm
  | c :: cs, s, hcs, hne => by
    have hc := hcs c (List.mem_cons_self c cs)
    have hstep : Sequencer.paramRun (c :: cs) s
        = Sequencer.paramRun cs (Sequencer.param c s) := rfl
    rw [hstep, param_digit c s hc.1 hc.2 hne]
    have hne2 : (updateLast
        (updateLast (fun v => (v * 10 + (c - 48)) % UMAX))
        s.parameters) ≠ [] := by
      intro hcontra
      have := updateLast_length
        (updateLast (fun v => (v * 10 + (c - 48)) % UMAX)) s.parameters
      rw [hcontra] at this
      simp only [List.length_nil] at this
      exact hne (List.eq_nil_of_length_eq_zero this.symm)
    rw [paramRun_digits cs _ (fun d hd => hcs d (List.mem_cons_of_mem c hd))
      hne2]
    rw [updateLast_comp]
    refine updateLast_congr _ _ ?_ s.parameters
    intro g
    rw [updateLast_comp]
    exact updateLast_congr _ _ (fun a => rfl) g

theorem paramRun_append (a b : List Nat) (s : Sequence) :
    Sequencer.paramRun (a ++ b) s =
      Sequencer.paramRun b (Sequencer.paramRun a s) := by
  simp [Sequencer.paramRun, List.foldl_append]

theorem paramRun_decimal_last (n : Nat) (hn : n < UMAX) (s : Sequence)
    (ps : List (List Nat)) (hps : s.parameters = ps ++ [[0]]) :
    (Sequencer.paramRun (natDecimalBytes n) s).parameters = ps ++ [[n]] := by
  rw [paramRun_digits (natDecimalBytes n) s
    (fun c hc => natDecimalBytes_digits n c hc) (by rw [hps]; simp), hps,
    updateLast_append_singleton,
    show updateLast (fun v => byteFold v (natDecimalBytes n)) [0]
      = [byteFold 0 (natDecimalBytes n)] from rfl,
    byteFold_decimal n hn]

theorem paramRun_decimal_first (n : Nat) (hn : n < UMAX) (s : Sequence)
    (hps : s.parameters = []) :
    (Sequencer.paramRun (natDecimalBytes n) s).parameters = [[n]] := by
  cases hb : natDecimalBytes n with
  | nil => exact absurd hb (natDecimalBytes_ne_nil n)
  | cons c rest =>
    have hc : 48 ≤ c ∧ c ≤ 57 :=
      natDecimalBytes_digits n c (hb ▸ List.mem_cons_self c rest)
    have h2 : (Sequencer.param c s).parameters
        = [[(0 * 10 + (c - 48)) % UMAX]] := by
      unfold Sequencer.param paramSwitch ensureParams
      rw [hps]
      simp only [List.isEmpty_nil, if_true]
      rw [if_neg (by omega), if_neg (by omega), if_pos ⟨hc.1, hc.2⟩]
      rfl
    rw [show Sequencer.paramRun (c :: rest) s
      = Sequencer.paramRun rest (Sequencer.param c s) from rfl]
    rw [paramRun_digits rest _
      (fun d hd =>
        natDecimalBytes_digits n d (hb ▸ List.mem_cons_of_mem c hd))
      (by rw [h2]; simp)]
    rw [h2]
    rw [show updateLast (updateLast (fun v => byteFold v rest))
        [[(0 * 10 + (c - 48)) % UMAX]]
      = [[byteFold ((0 * 10 + (c - 48)) % UMAX) rest]] from rfl]
    rw [show byteFold ((0 * 10 + (c - 48)) % UMAX) rest
      = byteFold 0 (c :: rest) from rfl]
    rw [← hb, byteFold_decimal n hn]

theorem paramRun_groups_tail :
    ∀ (vs : List Nat) (s : Sequence), s.parameters ≠ [] →
      s.parameters.length + vs.length ≤ Sequence.MaxParameters →
      (∀ v ∈ vs, v < UMAX) →
      (Sequencer.paramRun (vs.flatMap (fun v => 59 :: natDecimalBytes v))
          s).parameters
        = s.parameters ++ vs.map (fun v => [v])
  | [], s, _, _, _ => by simp [Sequencer.paramRun]
  | v :: vs, s, hne, hlen, hv => by
    have hcap : s.parameters.length < Sequence.MaxParameters := by
      simp only [List.length_cons] at hlen
      omega
    have hsemi := param_semi_append s hne hcap
    have h2 : (Sequencer.paramRun (natDecimalBytes v)
        { s with parameters := s.parameters ++ [[0]] }).parameters
        = s.parameters ++ [[v]] :=
      paramRun_decimal_last v (hv v (List.mem_cons_self v vs)) _
        s.parameters rfl
    rw [show (v :: vs).flatMap (fun w => 59 :: natDecimalBytes w)
        = (59 :: natDecimalBytes v) ++
          vs.flatMap (fun w => 59 :: natDecimalBytes w) from by
      simp [List.flatMap_cons]]
    rw [paramRun_append,
      show Sequencer.paramRun (59 :: natDecimalBytes v) s
        = Sequencer.paramRun (natDecimalBytes v) (Sequencer.param 59 s)
        from rfl,
      hsemi]
    rw [paramRun_groups_tail vs _ (by rw [h2]; simp)
      (by rw [h2]; simp only [List.length_append, List.length_singleton,
        List.length_cons, List.length_nil] at hlen ⊢; omega)
      (fun w hw => hv w (List.mem_cons_of_mem v hw)), h2]
    simp [List.append_assoc]

theorem joinSemicolon_cons_flatMap :
    ∀ (x : List Nat) (ls : List (List Nat)),
      joinSemicolon (x :: ls) = x ++ ls.flatMap (fun l => 59 :: l)
  | x, [] => by simp [joinSemicolon]
  | x, y :: ls => by
    rw [show joinSemicolon (x :: y :: ls) = x ++ 59 :: joinSemicolon (y :: ls)
        from rfl,
      joinSemicolon_cons_flatMap y ls]
    simp [List.flatMap_cons]

theorem flatMap_map {α β γ : Type} (f : α → β) (g : β → List γ) :
    ∀ l : List α, (l.map f).flatMap g = l.flatMap (fun a => g (f a))
  | [] => rfl
  | a :: l => by simp [List.flatMap_cons, flatMap_map f g l]

theorem paramRun_joinSemicolon (vs : List Nat) (s : Sequence)
    (hps : s.parameters = []) (hlen : vs.length ≤ Sequence.MaxParameters)
    (hv : ∀ v ∈ vs, v < UMAX) :
    (Sequencer.paramRun (joinSemicolon (vs.map natDecimalBytes)) s).parameters
      = vs.map (fun v => [v]) := by
  cases vs with
  | nil => simpa [joinSemicolon, Sequencer.paramRun] using hps
  | cons v vs =>
    rw [List.map_cons, joinSemicolon_cons_flatMap, flatMap_map,
      paramRun_append]
    have h1 : (Sequencer.paramRun (natDecimalBytes v) s).parameters = [[v]] :=
      paramRun_decimal_first v (hv v (List.mem_cons_self v vs)) s hps
    rw [paramRun_groups_tail vs _ (by rw [h1]; simp)
      (by rw [h1]; simp only [List.length_singleton,
        List.length_cons, List.length_nil] at hlen ⊢; omega)
      (fun w hw => hv w (List.mem_cons_of_mem v hw)), h1]
    simp

theorem joinSemicolon_bytes :
    ∀ ls : List (List Nat),
      (∀ l ∈ ls, ∀ c ∈ l, 48 ≤ c ∧ c ≤ 57) →
      ∀ c ∈ joinSemicolon ls, 48 ≤ c ∧ c ≤ 59
  | [], _, c, hc => by simp [joinSemicolon] at hc
  | [x], h, c, hc => by
    have := h x (List.mem_singleton.mpr rfl) c (by simpa [joinSemicolon] using hc)
    omega
  | x :: y :: ls, h, c, hc => by
    rw [show joinSemicolon (x :: y :: ls) = x ++ 59 :: joinSemicolon (y :: ls)
        from rfl] at hc
    rcases List.mem_append.mp hc with hc | hc
    · have := h x (List.mem_cons_self x _) c hc
      omega
    · rcases List.mem_cons.mp hc with hc | hc
      · omega
      · exact joinSemicolon_bytes (y :: ls)
          (fun l hl => h l (List.mem_cons_of_mem x hl)) c hc

theorem producerCSIBody_params :
    ∀ (bytes rest : List Nat) (s : Sequence),
      (∀ c ∈ bytes, 48 ≤ c ∧ c ≤ 59) →
      producerCSIBody (bytes ++ rest) s =
        producerCSIBody rest (Sequencer.paramRun bytes s)
  | [], rest, s, _ => rfl
  | c :: bytes, rest, s, h => by
    have hc := h c (List.mem_cons_self c bytes)
    rw [List.cons_append]
    show (if 48 ≤ c ∧ c ≤ 59 then
        producerCSIBody (bytes ++ rest) (Sequencer.param c s)
      else if 60 ≤ c ∧ c ≤ 63 then
        producerCSIBody (bytes ++ rest) (Sequencer.collectLeader c s)
      else if 32 ≤ c ∧ c ≤ 47 then
        producerCSIBody (bytes ++ rest) (Sequencer.collect c s)
      else if 64 ≤ c ∧ c ≤ 126 then
        if bytes ++ rest = [] then
          some { s with category := FunctionCategory.CSI, finalChar := c }
        else none
      else none) = _
    rw [if_pos hc]
    exact producerCSIBody_params bytes rest (Sequencer.param c s)
      (fun d hd => h d (List.mem_cons_of_mem c hd))

theorem producerCSIBody_final (f : Nat) (s : Sequence) (h64 : 64 ≤ f)
    (h126 : f ≤ 126) :
    producerCSIBody [f] s =
      some { s with category := FunctionCategory.CSI, finalChar := f } := by
  show (if 48 ≤ f ∧ f ≤ 59 then producerCSIBody [] (Sequencer.param f s)
    else if 60 ≤ f ∧ f ≤ 63 then
      producerCSIBody [] (Sequencer.collectLeader f s)
    else if 32 ≤ f ∧ f ≤ 47 then producerCSIBody [] (Sequencer.collect f s)
    else if 64 ≤ f ∧ f ≤ 126 then
      if ([] : List Nat) = [] then
        some { s with category := FunctionCategory.CSI, finalChar := f }
      else none
    else none) = _
  rw [if_neg (by omega), if_neg (by omega), if_neg (by omega),
    if_pos ⟨h64, h126⟩, if_pos rfl]

theorem getD_eq_get?D {α : Type} (d : α) :
    ∀ (l : List α) (i : Nat), l.getD i d = (l.get? i).getD d
  | [], 0 => rfl
  | [], _ + 1 => rfl
  | _ :: _, 0 => rfl
  | _ :: l, i + 1 => getD_eq_get?D d l i

theorem get?_map_list {α β : Type} (f : α → β) :
    ∀ (l : List α) (i : Nat), (l.map f).get? i = (l.get? i).map f
  | [], 0 => rfl
  | [], _ + 1 => rfl
  | _ :: _, 0 => rfl
  | _ :: l, i + 1 => get?_map_list f l i

theorem mkCSIseq_param (vs : List Nat) (finalChar i : Nat) :
    (mkCSIseq vs finalChar).param i = vs.getD i 0 := by
  unfold mkCSIseq Sequence.param
  simp only []
  rw [get?_map_list, getD_eq_get?D]
  cases hv : vs.get? i <;> rfl

theorem mkCSIseq_subcount (vs : List Nat) (finalChar i : Nat) :
    (mkCSIseq vs finalChar).subParameterCount i = 0 := by
  unfold mkCSIseq Sequence.subParameterCount
  simp only []
  rw [get?_map_list]
  cases hv : vs.get? i <;> rfl

theorem range_map_getD {α : Type} (f : Nat → α) :
    ∀ vs : List Nat,
      (List.range vs.length).map (fun i => f (vs.getD i 0)) = vs.map f
  | [] => rfl
  | v :: vs => by
    rw [List.length_cons, List.range_succ_eq_map, List.map_cons,
      List.map_map]
    rw [show ((fun i => f ((v :: vs).getD i 0)) ∘ Nat.succ)
        = (fun i => f (vs.getD i 0)) from funext (fun i => rfl)]
    rw [range_map_getD f vs]
    rfl

theorem rawParams_mkCSIseq (vs : List Nat) (finalChar : Nat) :
    (mkCSIseq vs finalChar).rawParams =
      joinSemicolon (vs.map natDecimalBytes) := by
  unfold Sequence.rawParams
  have hc : (mkCSIseq vs finalChar).parameterCount = vs.length := by
    simp [mkCSIseq, Sequence.parameterCount]
  rw [hc]
  congr 1
  have hone : ∀ i,
      natDecimalBytes ((mkCSIseq vs finalChar).param i) ++
        ((((List.range
            ((mkCSIseq vs finalChar).subParameterCount i)).drop 1).map
          (fun k => 58 :: natDecimalBytes
            ((mkCSIseq vs finalChar).subparam i k))).flatten)
      = natDecimalBytes (vs.getD i 0) := by
    intro i
    rw [mkCSIseq_param, mkCSIseq_subcount]
    simp
  rw [List.map_congr_left (fun i _ => hone i)]
  exact range_map_getD natDecimalBytes vs

theorem paramRun_fields :
    ∀ (cs : List Nat) (s : Sequence),
      (Sequencer.paramRun cs s).category = s.category ∧
      (Sequencer.paramRun cs s).leaderSymbol = s.leaderSymbol ∧
      (Sequencer.paramRun cs s).intermediateCharacters
        = s.intermediateCharacters ∧
      (Sequencer.paramRun cs s).finalChar = s.finalChar ∧
      (Sequencer.paramRun cs s).dataString = s.dataString
  | [], _ => ⟨rfl, rfl, rfl, rfl, rfl⟩
  | c :: cs, s => paramRun_fields cs (Sequencer.param c s)

theorem sequence_ext (a b : Sequence) (h1 : a.category = b.category)
    (h2 : a.leaderSymbol = b.leaderSymbol)
    (h3 : a.intermediateCharacters = b.intermediateCharacters)
    (h4 : a.finalChar = b.finalChar) (h5 : a.parameters = b.parameters)
    (h6 : a.dataString = b.dataString) : a = b := by
  cases a
  cases b
  simp_all

theorem producerParse_cons (rest : List Nat) :
    producerParse (27 :: 91 :: rest) = producerCSIBody rest Sequence.cleared :=
  rfl

theorem raw_mkCSIseq_nil (finalChar : Nat) (hf : finalChar ≠ 0) :
    (mkCSIseq [] finalChar).raw = 27 :: 91 :: [finalChar] := by
  unfold Sequence.raw
  rw [if_neg (by simp [mkCSIseq, Sequence.parameterCount])]
  simp [mkCSIseq, Sequence.cleared, hf]

theorem raw_mkCSIseq_of_ne (vs : List Nat) (finalChar : Nat) (hne : vs ≠ [])
    (hhead : vs.length = 1 → vs.headD 0 ≠ 0) (hf : finalChar ≠ 0) :
    (mkCSIseq vs finalChar).raw =
      27 :: 91 :: (joinSemicolon (vs.map natDecimalBytes) ++ [finalChar]) := by
  unfold Sequence.raw
  have hguard : 1 < (mkCSIseq vs finalChar).parameterCount ∨
      ((mkCSIseq vs finalChar).parameterCount = 1 ∧
        ((mkCSIseq vs finalChar).parameters.headD []).headD 0 ≠ 0) := by
    cases vs with
    | nil => exact absurd rfl hne
    | cons v vs2 =>
      cases vs2 with
      | nil =>
        right
        exact ⟨rfl, by simpa [mkCSIseq] using hhead rfl⟩
      | cons w vs3 =>
        left
        simp [mkCSIseq, Sequence.parameterCount]
  rw [if_pos hguard, rawParams_mkCSIseq]
  simp [mkCSIseq, Sequence.cleared, hf, List.append_assoc]

/-- C6 counterexample: the Sequence `CSI 4:3 m` (curly underline) does
not survive the round trip — `raw()` prints only `4` because its
sub-parameter loop starts at index 1 while `subparam(i, k)` addresses
the value following the primary by `k` positions, so the reference
producer reads back `CSI 4 m` with the sub-parameter lost. -/
theorem c6_counterexample :
    producerParse (Sequence.raw
        { Sequence.cleared with
            category := FunctionCategory.CSI
            finalChar := 109
            parameters := [[4, 3]] }) ≠
      some { Sequence.cleared with
          category := FunctionCategory.CSI
          finalChar := 109
          parameters := [[4, 3]] } := by
  decide

/-- C6 amended: the round trip holds on the leader-free fragment that
`raw()` serializes faithfully: a CSI sequence with single-valued
parameter groups (each below `2 ^ 32`, at most `MaxParameters` of them,
and not the lone group `0` whose rendering the guard suppresses), no
intermediates and no data string, parsed back by the reference producer,
yields the same Sequence.  In general the claim fails: `raw()` drops the
leader symbol and every group's first sub-parameter. -/
theorem c6_roundtrip_single_valued (vs : List Nat) (finalChar : Nat)
    (hv : ∀ v ∈ vs, v < UMAX) (hlen : vs.length ≤ Sequence.MaxParameters)
    (hhead : vs.length = 1 → vs.headD 0 ≠ 0)
    (h64 : 64 ≤ finalChar) (h126 : finalChar ≤ 126) :
    producerParse ((mkCSIseq vs finalChar).raw)
      = some (mkCSIseq vs finalChar) := by
  have hf : finalChar ≠ 0 := by omega
  by_cases hne : vs = []
  · subst hne
    rw [raw_mkCSIseq_nil finalChar hf, producerParse_cons,
      producerCSIBody_final finalChar Sequence.cleared h64 h126]
    rfl
  · have hbytes : ∀ c ∈ joinSemicolon (vs.map natDecimalBytes),
        48 ≤ c ∧ c ≤ 59 := by
      refine joinSemicolon_bytes _ ?_
      intro l hl c hc
      rcases List.mem_map.mp hl with ⟨w, hw, rfl⟩
      exact natDecimalBytes_digits w c hc
    rw [raw_mkCSIseq_of_ne vs finalChar hne hhead hf, producerParse_cons,
      producerCSIBody_params _ _ _ hbytes,
      producerCSIBody_final _ _ h64 h126]
    obtain ⟨hc, hl, hi, hfn, hd⟩ :=
      paramRun_fields (joinSemicolon (vs.map natDecimalBytes))
        Sequence.cleared
    have hparams := paramRun_joinSemicolon vs Sequence.cleared rfl hlen hv
    refine congrArg some (sequence_ext _ _ rfl ?_ ?_ rfl ?_ ?_)
    · exact hl
    · exact hi
    · exact hparams
    · exact hd

/-- C6 witness: the restricted round trip at `CSI 38;2026 G` — two
single-valued groups, one of them with several digits. -/
theorem c6_roundtrip_witness :
    producerParse ((mkCSIseq [38, 2026] 71).raw)
      = some (mkCSIseq [38, 2026] 71) :=
  c6_roundtrip_single_valued [38, 2026] 71 (by decide) (by decide)
    (by decide) (by decide) (by decide)

end Contour
